import Mathlib

/-!
# Verification of the xlsx-engine tabular transformation library

Shallow embedding of the JavaScript sources under `src/` (parser/extractor.js,
parser/modifier.js = {hiddenColumns, formatter, transformer}, parser/reader.js,
creator/creator.js + csvCreator, utils/dateUtils.js) together with theorems
settling the specification claims.

Strings are embedded as `List Char` (`Str`), JavaScript values as the inductive
`JSValue`, fallible code as `Except`/`Option`, the file system as an explicit
environment, and `Date` objects as minutes since the Unix epoch (UTC) plus an
explicit host timezone-offset parameter.  External collaborators (the
`unidecode` npm library, ExcelJS grid primitives) are modelled only to the
extent the claims exercise them; style plumbing (fonts/fills) is not modelled
since no claim concerns it.
-/

namespace XlsxEngine

/-- Strings are embedded as lists of characters. -/
abbrev Str := List Char

/-- The set of characters removed by JavaScript's `String.prototype.trim`
(ECMAScript WhiteSpace ∪ LineTerminator, restricted to the code points this
development manipulates; note it includes U+00A0 NBSP and U+FEFF ZWNBSP —
the latter is how the CSV reader ends up stripping the byte-order mark). -/
def isJsSpace (c : Char) : Bool :=
  c = ' ' || c = '\t' || c = '\n' || c = '\r' ||
  c = '\x0b' || c = '\x0c' || c = '\u00A0' || c = '\uFEFF' ||
  c = '\u2028' || c = '\u2029'

/-- Drop the JS-whitespace prefix (left half of `trim`). -/
def trimL (s : Str) : Str := s.dropWhile isJsSpace

/-- Drop the JS-whitespace suffix (right half of `trim`). -/
def trimR (s : Str) : Str := ((s.reverse).dropWhile isJsSpace).reverse

/-- JavaScript `String.prototype.trim`. -/
def jsTrim (s : Str) : Str := trimL (trimR s)

/-- JavaScript `toLowerCase`, per character, over the ASCII and Latin-1
ranges manipulated by this development (Latin-1 uppercase letters C0–DE,
excluding the multiplication sign D7, map 32 code points down). -/
def jsToLowerChar (c : Char) : Char :=
  if 0xC0 ≤ c.toNat ∧ c.toNat ≤ 0xDE ∧ c.toNat ≠ 0xD7 then
    Char.ofNat (c.toNat + 32)
  else
    c.toLower

/-- JavaScript `toLowerCase` on a string. -/
def jsToLower (s : Str) : Str := s.map jsToLowerChar

/-- JavaScript `toUpperCase`, per character, over the same range. -/
def jsToUpperChar (c : Char) : Char :=
  if 0xE0 ≤ c.toNat ∧ c.toNat ≤ 0xFE ∧ c.toNat ≠ 0xF7 then
    Char.ofNat (c.toNat - 32)
  else
    c.toUpper

/-- JavaScript `toUpperCase` on a string. -/
def jsToUpper (s : Str) : Str := s.map jsToUpperChar

/-- Model of the external `unidecode` npm library, per character: identity on
ASCII, the documented transliterations on the Latin-1 letters this repository's
data can contain, identity beyond the modelled range.  Whitespace-class
characters transliterate to whitespace (NBSP → space, ZWNBSP → empty). -/
def unidecodeChar (c : Char) : Str :=
  if c.toNat < 0x80 then [c]
  else if c = '\u00A0' then [' ']
  else if c = '\uFEFF' then []
  else if c = '\u2028' ∨ c = '\u2029' then [' ']
  else if c = 'à' ∨ c = 'á' ∨ c = 'â' ∨ c = 'ã' ∨ c = 'ä' ∨ c = 'å' then ['a']
  else if c = 'è' ∨ c = 'é' ∨ c = 'ê' ∨ c = 'ë' then ['e']
  else if c = 'ì' ∨ c = 'í' ∨ c = 'î' ∨ c = 'ï' then ['i']
  else if c = 'ò' ∨ c = 'ó' ∨ c = 'ô' ∨ c = 'õ' ∨ c = 'ö' ∨ c = 'ø' then ['o']
  else if c = 'ù' ∨ c = 'ú' ∨ c = 'û' ∨ c = 'ü' then ['u']
  else if c = 'ç' then ['c']
  else if c = 'ñ' then ['n']
  else if c = 'ý' ∨ c = 'ÿ' then ['y']
  else if c = 'æ' then ['a', 'e']
  else if c = 'À' ∨ c = 'Á' ∨ c = 'Â' ∨ c = 'Ã' ∨ c = 'Ä' ∨ c = 'Å' then ['A']
  else if c = 'È' ∨ c = 'É' ∨ c = 'Ê' ∨ c = 'Ë' then ['E']
  else if c = 'Ì' ∨ c = 'Í' ∨ c = 'Î' ∨ c = 'Ï' then ['I']
  else if c = 'Ò' ∨ c = 'Ó' ∨ c = 'Ô' ∨ c = 'Õ' ∨ c = 'Ö' ∨ c = 'Ø' then ['O']
  else if c = 'Ù' ∨ c = 'Ú' ∨ c = 'Û' ∨ c = 'Ü' then ['U']
  else if c = 'Ç' then ['C']
  else if c = 'Ñ' then ['N']
  else if c = 'Ý' then ['Y']
  else if c = 'Æ' then ['A', 'E']
  else [c]

/-- Embeds `unidecode` on a string. -/
def unidecodeStr (s : Str) : Str := s.flatMap unidecodeChar

/-- JavaScript `replace(/ /g, "_")`: every individual space character (exactly
U+0020, as in the source regex) becomes an underscore. -/
def replaceEachSpace (s : Str) : Str :=
  s.map (fun c => if c = ' ' then '_' else c)

/-- Embeds `formatTextToIdentifier` (parser/transformer.js, string branch).  The
source computes `texto.trim()` into `formattedText` but immediately overwrites
it with `texto.toLowerCase()`, so the initial trim's result is discarded; the
embedding mirrors that exactly. -/
def formatTextToIdentifier (texto : Str) : Str :=
  let _discardedTrim := jsTrim texto
  let f2 := jsToLower texto
  let f3 := unidecodeStr f2
  let f4 := jsTrim f3
  replaceEachSpace f4

/-- Embeds `formatTextToIdentifier` on an arbitrary value: non-strings return `null`
(modelled as `none`), so the column is dropped from keyed output. -/
def formatTextToIdentifierAny : Option Str → Option Str
  | some s => some (formatTextToIdentifier s)
  | none => none

mutual

/-- Modelled from the spec: the Identifier Normalizer's final step as the
claim words it — "replace each run of consecutive spaces with a single
underscore".  Used only to compare against the source's per-space
replacement. -/
def collapseSpaceRuns : Str → Str
  | [] => []
  | c :: rest =>
    if c = ' ' then '_' :: collapseSpacesTail rest else c :: collapseSpaceRuns rest

/-- Helper for `collapseSpaceRuns`: consume the remainder of a space run. -/
def collapseSpacesTail : Str → Str
  | [] => []
  | c :: rest =>
    if c = ' ' then collapseSpacesTail rest else c :: collapseSpaceRuns rest

end

/-- Modelled from the spec: the full Identifier Normalizer pipeline exactly as
claim C6 states it — `trim → lowercase → strip diacritics → trim → replace
each run of spaces with "_"`. -/
def claimedIdentifierPipeline (s : Str) : Str :=
  collapseSpaceRuns (jsTrim (unidecodeStr (jsToLower (jsTrim s))))

/-- The identifier pipeline amended to the source's behaviour: same five
steps, but the last step replaces each individual space with an underscore
(and the initial trim's result is discarded by the code, which is
observationally irrelevant — proved below). -/
def amendedIdentifierPipeline (s : Str) : Str :=
  replaceEachSpace (jsTrim (unidecodeStr (jsToLower (jsTrim s))))

/-! ### Decimal rendering of numbers (JS template-literal / `String(n)`) -/

/-- Digits of a natural number, most significant first, with structural fuel
(`natDecAux fuel n` is the decimal rendering of `n` whenever `0 < n ≤ fuel`). -/
def natDecAux : Nat → Nat → Str
  | 0, _ => []
  | fuel + 1, n =>
    if n = 0 then [] else natDecAux fuel (n / 10) ++ [Nat.digitChar (n % 10)]

/-- Decimal rendering of a natural number, as JavaScript renders it in a
template literal or `String(n)`. -/
def natDec (n : Nat) : Str := if n = 0 then ['0'] else natDecAux n n

/-- Decimal rendering of an integer (JavaScript `String(n)` for integral
numbers). -/
def intDec (n : Int) : Str :=
  if n < 0 then '-' :: natDec n.natAbs else natDec n.natAbs

/-- Value of a decimal digit character (inverse of `Nat.digitChar` below 10). -/
def digitVal (c : Char) : Nat := c.toNat - 48

/-- Big-endian decimal parse, used to prove `natDec` injective. -/
def parseDec (s : Str) : Nat := s.foldl (fun a c => a * 10 + digitVal c) 0

/-- Two-digit zero-padded rendering: JavaScript
`String(n).padStart(2, '0')`. -/
def pad2 (n : Nat) : Str := if n < 10 then '0' :: natDec n else natDec n

/-! ### JavaScript values, cells, worksheets, workbooks, environment -/

/-- ExcelJS cell protection object (`{ locked: false }` etc.). -/
structure CellProtection where
  locked : Bool
deriving DecidableEq, Repr

/-- ExcelJS data-validation object as built at creator/creator.js:311–318
(`type`, `formulae`, `allowBlank`, `showErrorMessage`, `errorTitle`,
`error`). -/
structure DataValidation where
  vtype : Str
  formulae : List Str
  allowBlank : Bool
  showErrorMessage : Bool
  errorTitle : Str
  errorText : Str
deriving DecidableEq, Repr

/-- JavaScript values as they flow through the engine: scalars, `Date`
objects (minutes since the Unix epoch UTC, `none` = Invalid Date), read-side
composite cell values carrying a `.result` sub-field (`.undefined` when the
property is absent), and write-side rich cell inputs
`{value?, note?, validation?, protection?}` (`hasValue` models the JS
`'value' in obj` test; style overrides are not modelled — no claim concerns
styling). -/
inductive JSValue where
  | null
  | undefined
  | str (s : Str)
  | num (n : Int)
  | jsBool (b : Bool)
  | date (t : Option Int)
  | obj (result : JSValue)
  | rich (hasValue : Bool) (value : JSValue) (note : Option Str)
      (validation : Option DataValidation) (protection : Option CellProtection)
deriving DecidableEq, Repr

/-- JavaScript truthiness.  Objects (including Invalid Date) are truthy. -/
def jsTruthy : JSValue → Bool
  | .null => false
  | .undefined => false
  | .str s => !s.isEmpty
  | .num n => n != 0
  | .jsBool b => b
  | .date _ => true
  | .obj _ => true
  | .rich _ _ _ _ _ => true

/-- JavaScript `String(v)` / `v.toString()` for the primitive values the
claims exercise (`Date`/object stringification is not exercised by any
claim and is left as the empty rendering). -/
def jsToString : JSValue → Str
  | .null => "null".data
  | .undefined => "undefined".data
  | .str s => s
  | .num n => intDec n
  | .jsBool b => if b then "true".data else "false".data
  | .date _ => []
  | .obj _ => []
  | .rich _ _ _ _ _ => []

/-- Errors: a generic `TypeError` (e.g. destructuring `undefined`, calling a
method on a non-function) versus an `Error(message)` thrown by the engine. -/
inductive JsErr where
  | typeError (msg : Str)
  | jsError (msg : Str)
deriving DecidableEq, Repr

/-- A record (plain JS object used as label→value mapping), in insertion
order. -/
abbrev Record := List (Str × JSValue)

/-- Property read `obj[key]`: `undefined` when absent. -/
def getProp (r : Record) (k : Str) : JSValue :=
  match r.lookup k with
  | some v => v
  | none => .undefined

/-- A written cell: value plus the optional validation/note/protection the
configurator may set.  A fresh ExcelJS cell holds `null`. -/
structure Cell where
  value : JSValue := .null
  dataValidation : Option DataValidation := none
  note : Option Str := none
  protection : Option CellProtection := none
deriving DecidableEq, Repr

/-- A worksheet row: populated cells keyed by 1-based column number. -/
structure SheetRow where
  cells : List (Nat × Cell) := []
deriving DecidableEq, Repr

/-- Embeds `row.getCell(col)`: a fresh (null-valued) cell when not yet populated. -/
def SheetRow.getCell (row : SheetRow) (col : Nat) : Cell :=
  match row.cells.lookup col with
  | some c => c
  | none => {}

/-- Functional cell update within a row. -/
def SheetRow.setCell (row : SheetRow) (col : Nat) (c : Cell) : SheetRow :=
  if (row.cells.lookup col).isSome then
    ⟨row.cells.map (fun p => if p.1 = col then (col, c) else p)⟩
  else
    ⟨row.cells ++ [(col, c)]⟩

/-- Largest populated column number of a row. -/
def SheetRow.maxCol (row : SheetRow) : Nat :=
  (row.cells.map Prod.fst).foldl max 0

/-- Whether ExcelJS `eachCell` (without `includeEmpty`) visits a cell: cells
whose value is `null`/`undefined` are skipped. -/
def cellPopulated (c : Cell) : Bool :=
  match c.value with
  | .null => false
  | .undefined => false
  | _ => true

/-- The cells `eachCell` visits, in ascending column order. -/
def SheetRow.eachCellList (row : SheetRow) : List (Nat × Cell) :=
  (List.range' 1 row.maxCol).filterMap fun col =>
    match row.cells.lookup col with
    | some c => if cellPopulated c then some (col, c) else none
    | none => none

/-- Worksheet: grid rows keyed by 1-based row number, hidden-column marks,
visibility state, freeze/autofilter/protection settings (widths and styles
are not modelled — no claim concerns them). -/
structure Worksheet where
  wsname : Str
  rows : List (Nat × SheetRow) := []
  hiddenCols : List Nat := []
  veryHidden : Bool := false
  frozenRowSplit : Option Nat := none
  autoFilterRange : Option (Nat × Nat × Nat) := none
  protectPassword : Option Str := none
deriving DecidableEq, Repr

/-- ExcelJS `worksheet.rowCount`: the largest touched row number. -/
def Worksheet.rowCount (ws : Worksheet) : Nat :=
  (ws.rows.map Prod.fst).foldl max 0

/-- Embeds `worksheet.getRow(r)`: a fresh empty row object when not yet touched. -/
def Worksheet.getRow (ws : Worksheet) (r : Nat) : SheetRow :=
  match ws.rows.lookup r with
  | some row => row
  | none => {}

/-- Functional row update (creating the row entry if absent, as touching a
row in ExcelJS does). -/
def Worksheet.setRow (ws : Worksheet) (r : Nat) (row : SheetRow) : Worksheet :=
  if (ws.rows.lookup r).isSome then
    { ws with rows := ws.rows.map (fun p => if p.1 = r then (r, row) else p) }
  else
    { ws with rows := ws.rows ++ [(r, row)] }

/-- Workbook: ordered worksheets. -/
structure Workbook where
  sheets : List Worksheet := []
deriving DecidableEq, Repr

/-- Embeds `workbook.getWorksheet(name)`: find by exact name. -/
def Workbook.getByName (wb : Workbook) (n : Str) : Option Worksheet :=
  wb.sheets.find? (fun ws => ws.wsname = n)

/-- Embeds `workbook.getWorksheet(number)`: 1-based position. -/
def Workbook.getByIndex (wb : Workbook) (i : Nat) : Option Worksheet :=
  if h : 1 ≤ i ∧ i - 1 < wb.sheets.length then some (wb.sheets.get ⟨i - 1, h.2⟩)
  else none

/-- A stored file: an `.xlsx` container or CSV text. -/
inductive FileContent where
  | xlsxFile (wb : Workbook)
  | csvFile (text : Str)

/-- The file system, path → content. -/
def Env := Str → Option FileContent

/-- Writing a file. -/
def Env.insert (env : Env) (path : Str) (f : FileContent) : Env :=
  fun p => if p = path then some f else env p

/-! ### Date utilities (utils/dateUtils.js)

A JS `Date` is an absolute instant; field getters read the LOCAL clock, which
sits `tz` minutes behind UTC (`tz = date.getTimezoneOffset()`, positive west
of Greenwich: local = utc − tz).  Calendar conversion uses the standard civil
calendar algorithm over floor division. -/

/-- Civil date (year, month 1–12, day 1–31) from days since 1970-01-01. -/
def civilFromDays (z : Int) : Int × Nat × Nat :=
  let z' := z + 719468
  let era := z'.fdiv 146097
  let doe := (z' - era * 146097).toNat
  let yoe := (doe - doe / 1460 + doe / 36524 - doe / 146096) / 365
  let doy := doe - (365 * yoe + yoe / 4 - yoe / 100)
  let mp := (5 * doy + 2) / 153
  let d := doy - (153 * mp + 2) / 5 + 1
  let m := if mp < 10 then mp + 3 else mp - 9
  (era * 400 + yoe + (if m ≤ 2 then 1 else 0), m, d)

/-- Clock fields (year, month 1-based, day, hour, minute) of an absolute
minute count, read on the UTC clock. -/
def dateFields (t : Int) : Int × Nat × Nat × Nat × Nat :=
  let days := t.fdiv 1440
  let mins := (t.fmod 1440).toNat
  let (y, m, d) := civilFromDays days
  (y, m, d, mins / 60, mins % 60)

/-- Clock fields as the JS getters return them on a host with offset `tz`
(local clock = UTC − tz). -/
def localFields (t : Int) (tz : Int) : Int × Nat × Nat × Nat × Nat :=
  dateFields (t - tz)

/-- Embeds `getScheduleDate` (utils/dateUtils.js): `HH:MM` from the local
`getHours`/`getMinutes`, zero-padded. -/
def getScheduleDate (t : Int) (tz : Int) : Str :=
  let f := localFields t tz
  pad2 f.2.2.2.1 ++ ':' :: pad2 f.2.2.2.2

/-- Embeds `formatFullDate` (utils/dateUtils.js): `DD/MM/YYYY` from the local
getters (`getMonth() + 1` is the 1-based month field). -/
def formatFullDate (t : Int) (tz : Int) : Str :=
  let f := localFields t tz
  pad2 f.2.2.1 ++ '/' :: pad2 f.2.1 ++ '/' :: intDec f.1

/-- Portuguese month names used by `getExtendedDate`. -/
def monthNamePt (m : Nat) : Str :=
  match m with
  | 1 => "janeiro".data | 2 => "fevereiro".data | 3 => "março".data
  | 4 => "abril".data | 5 => "maio".data | 6 => "junho".data
  | 7 => "julho".data | 8 => "agosto".data | 9 => "setembro".data
  | 10 => "outubro".data | 11 => "novembro".data | 12 => "dezembro".data
  | _ => []

/-- Embeds `getExtendedDate` (utils/dateUtils.js), `Date` branch: long localized
form `"DD de <mês> de YYYY"` from the local getters. -/
def getExtendedDate (t : Int) (tz : Int) : Str :=
  let f := localFields t tz
  pad2 f.2.2.1 ++ " de ".data ++ monthNamePt f.2.1 ++ " de ".data ++ intDec f.1

/-! ### Value formatting (parser/formatter.js) -/

/-- JS `String.prototype.includes` as substring containment. -/
def strIncludes (hay needle : Str) : Bool :=
  (List.range (hay.length + 1)).any fun i => needle.isPrefixOf (hay.drop i)

/-- Embeds `formatDate` (parser/formatter.js): copy the date, fail on an invalid
one, add the host timezone offset via
`date.setMinutes(date.getMinutes() + date.getTimezoneOffset())` (which shifts
the instant by `tz` minutes), then dispatch on the field identifier. -/
def formatDate (rule : Str) (dateValue : Option Int) (tz : Int) : Except JsErr Str :=
  match dateValue with
  | none => .error (.jsError "Valor de data inválido fornecido.".data)
  | some t =>
    let adjusted := t + tz
    if strIncludes rule "horario".data then .ok (getScheduleDate adjusted tz)
    else if strIncludes rule "extenso".data then .ok (getExtendedDate adjusted tz)
    else .ok (formatFullDate adjusted tz)

/-- Embeds `formatData` (parser/formatter.js): dates via `formatDate`, strings
trimmed, composite objects yield `value.result || ''`, anything else is
stringified. -/
def formatData (key : Str) (value : JSValue) (tz : Int) : Except JsErr JSValue :=
  match value with
  | .date t => (formatDate key t tz).map .str
  | .str s => .ok (.str (jsTrim s))
  | .obj result => .ok (if jsTruthy result then result else .str [])
  | .rich _ _ _ _ _ => .ok (.str [])
  | .null => .ok (.str (jsToString .null))
  | v => .ok (.str (jsToString v))

/-- Embeds `formatReplacement` (parser/formatter.js): format every field of a
record, in insertion order; the first failing field aborts the whole call. -/
def formatReplacement (obj : Record) (tz : Int) : Except JsErr Record :=
  obj.mapM fun kv => (formatData kv.1 kv.2 tz).map (fun v => (kv.1, v))

/-! ### Reader (parser/reader.js) -/

/-- Embeds `getExcelWorkbook`: open an `.xlsx` file (invalid path pre-check, then
the codec read, which fails when the path does not hold a workbook). -/
def getExcelWorkbook (env : Env) (fileExcel : Str) : Except JsErr Workbook :=
  if fileExcel.isEmpty then
    .error (.jsError "Caminho do arquivo Excel inválido fornecido.".data)
  else
    match env fileExcel with
    | some (.xlsxFile wb) => .ok wb
    | _ => .error (.jsError "read failure".data)

/-- Sheet selector: ExcelJS `getWorksheet` accepts a 1-based number or a
sheet name. -/
inductive SheetSel where
  | byIndex (i : Nat)
  | byName (n : Str)
deriving DecidableEq, Repr

/-- Embeds `getWorksheet` (parser/reader.js): resolve by index or name; on a miss
with a string selector retry with the name truncated to 31 characters
(`sheetIndex.slice(0, 31)`); a miss with a numeric selector hits
`sheetIndex.slice` on a number, a `TypeError`; a final miss raises a
sheet-not-found error. -/
def getWorksheet (wb : Workbook) (sheetIndex : SheetSel) : Except JsErr Worksheet :=
  match sheetIndex with
  | .byIndex i =>
    match wb.getByIndex i with
    | some ws => .ok ws
    | none => .error (.typeError "sheetIndex.slice is not a function".data)
  | .byName n =>
    match wb.getByName n with
    | some ws => .ok ws
    | none =>
      match wb.getByName (n.take 31) with
      | some ws => .ok ws
      | none =>
        .error (.jsError ("A planilha ".data ++ n ++
          " não foi encontrada no workbook.".data))

/-- Embeds `getHeaderRow` (parser/reader.js): the header row index must be ≥ 1;
`worksheet.getRow` always yields a row object, so the subsequent null check
never fires. -/
def getHeaderRow (ws : Worksheet) (header : Nat) : Except JsErr SheetRow :=
  if header < 1 then
    .error (.jsError ("Número da linha de cabeçalho inválido fornecido. " ++
      "Deve ser um número maior ou igual a 1.").data)
  else
    .ok (ws.getRow header)

/-! ### Column map (parser/transformer.js) -/

/-- JavaScript `Array.prototype.join(sep)` for string arrays. -/
def joinSep (sep : Str) : List Str → Str
  | [] => []
  | [x] => x
  | x :: xs => x ++ sep ++ joinSep sep xs

/-- JS object insert `columnMap[key] = v`: overwrite in place when present,
else append. -/
def upsert (m : List (Str × Nat)) (k : Str) (v : Nat) : List (Str × Nat) :=
  if (m.lookup k).isSome then
    m.map (fun p => if p.1 = k then (k, v) else p)
  else
    m ++ [(k, v)]

/-- Embeds `verifyNecessaryColumns` (parser/transformer.js): a required label is
missing when `!columnMap[column]` — an exact property lookup of the label as
given (absent, or a falsy 0 value); all missing labels are joined into one
error message. -/
def missingColumnsMessage (missingColumns : List Str) : Str :=
  "Colunas \"".data ++ joinSep ", ".data missingColumns ++
    "\" são necessárias para processar os dados da planilha corretamente.".data

def verifyNecessaryColumns (columnMap : List (Str × Nat)) (necessaryColumns : List Str) :
    Except JsErr Unit :=
  let missingColumns := necessaryColumns.filter fun c => ((columnMap.lookup c).getD 0) == 0
  if missingColumns.isEmpty then .ok ()
  else .error (.jsError (missingColumnsMessage missingColumns))

/-- One step of the `eachCell` fold building the column map: truthy,
non-object header values are stored under their upper-cased text
(`cell.value.toUpperCase()` on a number or boolean would be a `TypeError`;
objects — including dates — are skipped by the `typeof` guard). -/
def columnMapStep (m : Except JsErr (List (Str × Nat))) (entry : Nat × Cell) :
    Except JsErr (List (Str × Nat)) := do
  let m ← m
  if jsTruthy entry.2.value then
    match entry.2.value with
    | .str s => pure (upsert m (jsToUpper s) entry.1)
    | .date _ | .obj _ | .rich _ _ _ _ _ | .null => pure m
    | _ => .error (.typeError "cell.value.toUpperCase is not a function".data)
  else
    pure m

/-- Embeds `getSheetColumnMap` (parser/transformer.js): build the upper-cased
header-text → column-number map from the header row, then run the
required-columns check when a list was supplied (an empty list is truthy in
JS and runs the check vacuously); the catch block rewraps the same
message. -/
def getSheetColumnMap (ws : Worksheet) (headerIndex : Nat)
    (necessaryColumns : Option (List Str)) : Except JsErr (List (Str × Nat)) := do
  let headerRow ← getHeaderRow ws headerIndex
  let columnMap ← headerRow.eachCellList.foldl columnMapStep (.ok [])
  match necessaryColumns with
  | some cols =>
    match verifyNecessaryColumns columnMap cols with
    | .ok _ => .ok columnMap
    | .error (.jsError m) => .error (.jsError m)
    | .error (.typeError m) => .error (.jsError m)
  | none => .ok columnMap

/-! ### Record extraction (parser/extractor.js) -/

/-- The candidate key `` `${upString}_${counter}` `` built by the collision
loop. -/
def suffixedKey (base : Str) (k : Nat) : Str := base ++ '_' :: natDec k

/-- The sequence of keys the collision loop tries: the identifier itself,
then `identifier_2`, `identifier_3`, … -/
def keyCandidate (base : Str) (k : Nat) : Str :=
  if k = 1 then base else suffixedKey base k

/-- The collision loop of `setObjectReplacements`: `newKey = upString;
counter = 1; while (replacements.hasOwnProperty(newKey)) { counter++;
newKey = upString + "_" + counter }`, run with enough structural fuel to
cover every possible collision. -/
def resolveKeyGo (keys : List Str) (base : Str) : Nat → Str → Nat → Str
  | 0, newKey, _ => newKey
  | fuel + 1, newKey, counter =>
    if keys.contains newKey then
      resolveKeyGo keys base fuel (suffixedKey base (counter + 1)) (counter + 1)
    else newKey

/-- The key actually used for an identifier, given the keys already present
in the record under construction. -/
def resolveKey (keys : List Str) (base : Str) : Str :=
  resolveKeyGo keys base (keys.length + 2) base 1

/-- One `eachCell` step of `setObjectReplacements`: look the header cell up
by column position, skip columns with no truthy header value or marked
hidden, derive the identifier (non-string header text yields none; an empty
identifier is falsy and also skipped), resolve key collisions, and assign
the raw cell value. -/
def replacementStep (headerRow : SheetRow) (ws : Worksheet) (replacements : Record)
    (entry : Nat × Cell) : Record :=
  let columnCell := headerRow.getCell entry.1
  if jsTruthy columnCell.value ∧ ¬ ws.hiddenCols.contains entry.1 then
    match columnCell.value with
    | .str s =>
      let upString := formatTextToIdentifier s
      if upString.isEmpty then replacements
      else
        let newKey := resolveKey (replacements.map Prod.fst) upString
        replacements ++ [(newKey, entry.2.value)]
    | _ => replacements
  else replacements

/-- Embeds `setObjectReplacements` (parser/extractor.js): fold the row's populated
cells in column order (the `styles` side output is not modelled — it is
unused on this path). -/
def setObjectReplacements (row : SheetRow) (headerRow : SheetRow) (ws : Worksheet) :
    Record :=
  row.eachCellList.foldl (replacementStep headerRow ws) []

/-- The data the read-side setup hands to `excelToJson`. -/
structure ExcelData where
  worksheet : Worksheet
  columnMap : List (Str × Nat)
  headerRow : SheetRow
deriving Repr

/-- Embeds `getExcelData` (parser/extractor.js): the invalid-path check throws
before the `try`; inside it, any failure of open / sheet-resolve /
column-map / header-row is caught, logged, and the function falls through —
resolving `undefined` (`none`). -/
def readSetup (env : Env) (fileExcel : Str) (necessaryColumns : Option (List Str))
    (sheetIndex : SheetSel) (headerIndex : Nat) : Except JsErr ExcelData := do
  let workbook ← getExcelWorkbook env fileExcel
  let worksheet ← getWorksheet workbook sheetIndex
  let columnMap ← getSheetColumnMap worksheet headerIndex necessaryColumns
  let headerRow ← getHeaderRow worksheet headerIndex
  pure (ExcelData.mk worksheet columnMap headerRow)

def getExcelData (env : Env) (fileExcel : Str) (necessaryColumns : Option (List Str))
    (sheetIndex : SheetSel) (headerIndex : Nat) : Except JsErr (Option ExcelData) :=
  if fileExcel.isEmpty then
    .error (.jsError "Caminho do arquivo Excel inválido fornecido.".data)
  else
    match readSetup env fileExcel necessaryColumns sheetIndex headerIndex with
    | .ok d => .ok (some d)
    | .error _ => .ok none

/-- The row loop of `excelToJson`: build and format each row's record from
`initRow` to `worksheet.rowCount`, keeping non-empty ones. -/
def excelToJsonRows (ws : Worksheet) (headerRow : SheetRow) (initRow : Nat) (tz : Int) :
    Except JsErr (List Record) :=
  (List.range' initRow (ws.rowCount + 1 - initRow)).foldlM
    (fun acc rowNumber => do
      let row := ws.getRow rowNumber
      let replacements := setObjectReplacements row headerRow ws
      let formattedReplacement ← formatReplacement replacements tz
      pure (if formattedReplacement.isEmpty then acc else acc ++ [formattedReplacement]))
    []

/-- Embeds `excelToJson` (parser/extractor.js), `config = null` path.  Destructuring
the result of `getExcelData` raises a `TypeError` when that call swallowed a
setup error and resolved `undefined`; the `initRow` guard throws past the
`try`; inside the `try`, a row-formatting failure is caught and logged and
the function falls through — resolving `undefined` (`ok none`) instead of
the accumulated records. -/
def excelToJson (env : Env) (fileExcel : Str) (initRow : Nat) (sheetIndex : SheetSel)
    (headerIndex : Nat) (necessaryColumns : Option (List Str)) (tz : Int) :
    Except JsErr (Option (List Record)) :=
  match getExcelData env fileExcel necessaryColumns sheetIndex headerIndex with
  | .error e => .error e
  | .ok none =>
    .error (.typeError "Cannot destructure property 'worksheet' of undefined".data)
  | .ok (some data) =>
    if initRow < 1 then
      .error (.jsError ("Número de linha inicial inválido fornecido. " ++
        "Deve ser um número maior ou igual a 1.").data)
    else
      match excelToJsonRows data.worksheet data.headerRow initRow tz with
      | .ok formattedReplacements => .ok (some formattedReplacements)
      | .error _ => .ok none

/-! ### Construction side (creator/creator.js) -/

/-- Column validation input: a `{select: true, values: [...]}` descriptor or
a literal rule used verbatim. -/
inductive ColumnValidation where
  | select (values : List Str)
  | literal (rule : DataValidation)
deriving DecidableEq, Repr

/-- A column specification: a bare label, or an object
`{value, key?, width?, validation?, editable?}` (styles not modelled). -/
inductive ColumnSpec where
  | label (s : Str)
  | spec (value : Str) (key : Option Str) (width : Option Nat)
      (validation : Option ColumnValidation) (editable : Bool)
deriving DecidableEq, Repr

/-- A prepared column (the map at creator.js:234–249): header text, derived
key (`column.key || formatTextToIdentifier(column.value)` — an empty
explicit key is falsy and falls back), width, validation, editable flag. -/
structure PreparedColumn where
  header : Str
  key : Str
  width : Option Nat := none
  validation : Option ColumnValidation := none
  editable : Bool := false
deriving DecidableEq, Repr

/-- Prepare one column spec. -/
def prepareColumn : ColumnSpec → PreparedColumn
  | .label s => { header := s, key := formatTextToIdentifier s }
  | .spec value key width validation editable =>
    { header := value
      key := match key with
        | some k => if k.isEmpty then formatTextToIdentifier value else k
        | none => formatTextToIdentifier value
      width := width
      validation := validation
      editable := editable }

/-- Header configuration bundle (the `config?.header` object; header styles
are not modelled). -/
structure HeaderConfig where
  fixed : Bool := false
  row : Option Nat := none
  headerRow : Option Nat := none
  filter : Option Bool := none
deriving DecidableEq, Repr

/-- Embeds `setHeaderRow` (creator/creator.js), grid effects: a column object whose
`value` is empty is falsy and rejected; assigning `worksheet.columns` writes
the header labels into row 1; `config.fixed` freezes rows above
`config.row || 1`; unless `config.filter === false`, an autofilter spans the
header columns on row `config?.row` (defaulting to 1 inside
`enableColumnFilters`). -/
def setHeaderRow (ws : Worksheet) (columns : List ColumnSpec) (config : HeaderConfig) :
    Except JsErr Worksheet :=
  if columns.any (fun c => match c with | .spec v _ _ _ _ => v.isEmpty | _ => false) then
    .error (.jsError "Cada coluna deve ser uma string ou um objeto com o campo \"value\".".data)
  else
    let preparedColumns := columns.map prepareColumn
    let ws := preparedColumns.foldl
      (fun (acc : Worksheet × Nat) pc =>
        let row := acc.1.getRow 1
        (acc.1.setRow 1 (row.setCell acc.2 { row.getCell acc.2 with value := .str pc.header }),
         acc.2 + 1))
      (ws, 1) |>.1
    let ws := if config.fixed then
        { ws with frozenRowSplit := some (config.row.getD 1) } else ws
    let ws := if config.filter.getD true then
        (if 0 < preparedColumns.length then
          { ws with autoFilterRange := some (config.row.getD 1, 1, preparedColumns.length) }
         else ws)
      else ws
    .ok ws

/-- Validation-list allocator session state: the rows already written to the
`HiddenSelect` worksheet (column A, rows 1..length, in order) and the
`listaMapeada` dedup cache from pipe-joined key to start row. -/
structure AllocState where
  hiddenRows : List Str := []
  cache : List (Str × Nat) := []
deriving DecidableEq, Repr

/-- The dedup key: `val.values.join('|')`. -/
def joinPipe (vals : List Str) : Str := joinSep ['|'] vals

/-- Build the dropdown rule for a resolved row range
(creator/creator.js:311–318). -/
def mkSelectRule (linhaInicio linhaFim : Nat) : DataValidation :=
  { vtype := "list".data
    formulae := ["=HiddenSelect!$A$".data ++ natDec linhaInicio ++
      ":$A$".data ++ natDec linhaFim]
    allowBlank := true
    showErrorMessage := true
    errorTitle := "Entrada inválida".data
    errorText := "Escolha um valor da lista suspensa.".data }

/-- One allocation (creator/creator.js:299–318): reuse the cached start row
for this pipe-joined key, or append the values after the hidden sheet's
current rows (`abaOculta.rowCount + 1`) and cache the new start; the
returned range runs `linhaInicio .. linhaInicio + values.length - 1`. -/
def allocStep (st : AllocState) (values : List Str) :
    (DataValidation × Nat × Nat) × AllocState :=
  let chave := joinPipe values
  match st.cache.lookup chave with
  | some linhaInicio =>
    let linhaFim := linhaInicio + values.length - 1
    ((mkSelectRule linhaInicio linhaFim, linhaInicio, linhaFim), st)
  | none =>
    let linhaInicio := st.hiddenRows.length + 1
    let linhaFim := linhaInicio + values.length - 1
    ((mkSelectRule linhaInicio linhaFim, linhaInicio, linhaFim),
     { hiddenRows := st.hiddenRows ++ values, cache := (chave, linhaInicio) :: st.cache })

/-- A construction-session run of the allocator from a given state: the
dropdown resolutions in processing order, each with its rule and row
range. -/
def runAllocFrom (st : AllocState) : List (List Str) → List (DataValidation × Nat × Nat)
  | [] => []
  | vals :: rest =>
    let (res, st') := allocStep st vals
    res :: runAllocFrom st' rest

/-- A construction session starting from the fresh workbook state. -/
def runAlloc (reqs : List (List Str)) : List (DataValidation × Nat × Nat) :=
  runAllocFrom {} reqs

/-- The allocator state after processing a session from a given state. -/
def allocStateFrom (st : AllocState) : List (List Str) → AllocState
  | [] => st
  | vals :: rest => allocStateFrom (allocStep st vals).2 rest

/-- The allocation outcome (rule and row range) of the i-th dropdown
resolution of a session (out-of-range defaults are never used by the
theorems, which carry range hypotheses). -/
def allocResult (reqs : List (List Str)) (i : Nat) : DataValidation × Nat × Nat :=
  (runAlloc reqs).getD i (mkSelectRule 0 0, 0, 0)

/-- The number of rows the hidden lookup sheet holds just before the j-th
resolution of a session. -/
def rowsBefore (reqs : List (List Str)) (j : Nat) : Nat :=
  (allocStateFrom {} (reqs.take j)).hiddenRows.length

/-- Invariant of the allocator state: every cache entry was created by some
value list whose block of hidden-sheet rows lies within the rows written so
far. -/
def CacheInv (st : AllocState) : Prop :=
  ∀ p ∈ st.cache, 1 ≤ p.2 ∧
    ∃ v : List Str, joinPipe v = p.1 ∧ p.2 + v.length ≤ st.hiddenRows.length + 1

/-- The per-cell write of `configureSheet`'s row loop (creator.js:263–338):
rich objects contribute their `value`, note and embedded validation; absent
cell validation falls back to the column's rule (a `{select, values}`
descriptor goes through the allocator); the final assignment is
`cell.value = valorFinal || null`; the editable column unlocks the cell and
a rich protection override wins.  Style application is not modelled. -/
def writeCell (rowData : Record) (columnConfig : PreparedColumn) (cell : Cell)
    (st : AllocState) : Cell × AllocState :=
  let matchedValue := getProp rowData columnConfig.key
  let valorFinal := matchedValue
  let cellValidation : Option DataValidation := none
  let (valorFinal, cellValidation, cell) :=
    match matchedValue with
    | .rich true v note validation _ =>
      let cell := match note with
        | some n => if n.isEmpty then cell else { cell with note := some n }
        | none => cell
      (v, validation, cell)
    | _ => (valorFinal, cellValidation, cell)
  let (cellValidation, st) :=
    match cellValidation, columnConfig.validation with
    | none, some (.select values) =>
      let (res, st) := allocStep st values
      (some res.1, st)
    | none, some (.literal rule) => (some rule, st)
    | v, _ => (v, st)
  let cell := match cellValidation with
    | some dv => { cell with dataValidation := some dv }
    | none => cell
  let cell := { cell with value := if jsTruthy valorFinal then valorFinal else .null }
  let cell := if columnConfig.editable then
      { cell with protection := some ⟨false⟩ } else cell
  let cell := match matchedValue with
    | .rich _ _ _ _ (some p) => { cell with protection := some p }
    | _ => cell
  (cell, st)

/-- The scalar a cell write is supposed to carry: the row record's value
for the column key, unwrapped to the `value` field when the input is a rich
object carrying one (`valorFinal` before the `|| null` coercion). -/
def suppliedScalar (rowData : Record) (key : Str) : JSValue :=
  match getProp rowData key with
  | .rich true v _ _ _ => v
  | v => v

/-- One data row of `configureSheet`: `worksheet.addRow()` touches row
`rowCount + 1`, then each prepared column writes its cell at position
`index + 1`. -/
def configureRow (preparedColumns : List PreparedColumn) (acc : Worksheet × AllocState)
    (rowData : Record) : Worksheet × AllocState :=
  let ws := acc.1
  let rowIdx := ws.rowCount + 1
  let ws := ws.setRow rowIdx (ws.getRow rowIdx)
  preparedColumns.foldl
    (fun (st : Worksheet × AllocState × Nat) columnConfig =>
      let (ws, alloc, colIdx) := st
      let row := ws.getRow rowIdx
      let (cell, alloc) := writeCell rowData columnConfig (row.getCell colIdx) alloc
      (ws.setRow rowIdx (row.setCell colIdx cell), alloc, colIdx + 1))
    (ws, acc.2, 1)
  |> fun st => (st.1, st.2.1)

/-- Worksheet protection options. -/
structure ProtectionSpec where
  enabled : Bool := false
  password : Str := []
deriving DecidableEq, Repr

/-- Embeds `configureSheet` (creator/creator.js): prepare columns, write the header
(via `setHeaderRow`), thread the hidden-sheet allocator state through every
data cell, and protect the sheet when asked.  Column-width adjustment and
styles are not modelled (no claim concerns them). -/
def configureSheet (ws : Worksheet) (columns : List ColumnSpec) (rows : List Record)
    (config : Option HeaderConfig) (st : AllocState)
    (protection : Option ProtectionSpec) : Except JsErr (Worksheet × AllocState) := do
  let preparedColumns := columns.map prepareColumn
  let ws ← setHeaderRow ws columns (config.getD {})
  let (ws, st) := rows.foldl (configureRow preparedColumns) (ws, st)
  let ws := match protection with
    | some p => if p.enabled then { ws with protectPassword := some p.password } else ws
    | none => ws
  pure (ws, st)

/-- Materialize the allocator state as the `HiddenSelect` worksheet (column
A, rows 1..n, `veryHidden`). -/
def hiddenSelectSheet (st : AllocState) : Worksheet :=
  { wsname := "HiddenSelect".data
    veryHidden := true
    rows := (List.range st.hiddenRows.length).map fun i =>
      (i + 1, ⟨[(1, { value := .str (st.hiddenRows.getD i []) })]⟩) }

/-- Embeds `createExcelXlsx` (creator/creator.js), single-sheet mode: fresh
workbook, named sheet (name required), `configureSheet`, save.  The
top-level `catch` swallows every failure (logging it), so on error the call
resolves without writing anything — the environment is returned
unchanged. -/
def createExcelXlsx (env : Env) (sheetName : Str) (columns : List ColumnSpec)
    (rows : List Record) (directory : Str) (config : Option HeaderConfig)
    (protection : Option ProtectionSpec) : Env :=
  let built : Except JsErr Workbook := do
    if sheetName.isEmpty then
      throw (.jsError "Necessário informar o nome da planilha.".data)
    let worksheet : Worksheet := { wsname := sheetName }
    let (worksheet, st) ← configureSheet worksheet columns rows config {} protection
    pure ⟨[worksheet, hiddenSelectSheet st]⟩
  match built with
  | .ok wb => env.insert directory (.xlsxFile wb)
  | .error _ => env

/-! ### CSV bridge (creator/csvCreator.js, parser/reader.js) -/

/-- Quote-and-escape one CSV data field:
`"${value.toString().replace(/"/g, '""')}"`. -/
def csvField (value : JSValue) : Str :=
  '"' :: (jsToString value).flatMap (fun c => if c = '"' then ['"', '"'] else [c]) ++ ['"']

/-- Embeds `createExcelCsv` (creator/csvCreator.js): header line quotes the column
labels verbatim, data lines quote `row[col] || ''` with doubled quotes,
fields joined with `;`, lines with `\n`, the whole output prefixed with a
UTF-8 BOM. -/
def createExcelCsv (env : Env) (outputFilePath : Str) (columns : List Str)
    (rows : List Record) : Env :=
  let headerLine := joinSep [';'] (columns.map fun col => '"' :: col ++ ['"'])
  let dataLines := rows.map fun row =>
    joinSep [';'] (columns.map fun col =>
      let v := getProp row col
      csvField (if jsTruthy v then v else .str []))
  let csvContent := joinSep ['\n'] (headerLine :: dataLines)
  env.insert outputFilePath (.csvFile ('\uFEFF' :: csvContent))

/-- Split a CSV text into the lines `readline` yields (separators `\n`,
with a preceding `\r` dropped; empty input yields no lines). -/
def csvLines (text : Str) : List Str :=
  if text.isEmpty then []
  else (text.splitOnP (fun c => c = '\n')).map fun l =>
    if l.getLast? = some '\r' then l.dropLast else l

/-- JS `line.split(/;|,/)`: split at every semicolon or comma. -/
def splitOnDelims (s : Str) : List Str :=
  s.splitOnP fun c => c = ';' || c = ','

/-- Embeds `csvToXlsx` (parser/reader.js): stream the CSV's lines; each is trimmed
(JS `trim` also removes a leading U+FEFF byte-order mark) and split on `;`
or `,` with no quote-aware parsing, then appended as a row of raw string
cells; the workbook is saved at the target path. -/
def csvToXlsx (env : Env) (csvFilePath xlsxFilePath : Str) (aba : Str) :
    Except JsErr Env :=
  match env csvFilePath with
  | some (.csvFile text) =>
    let worksheet : Worksheet := { wsname := aba }
    let worksheet := (csvLines text).foldl
      (fun ws line =>
        let cleanedLine := jsTrim line
        let rowVals := splitOnDelims cleanedLine
        let rowIdx := ws.rowCount + 1
        (rowVals.foldl (fun (acc : Worksheet × Nat) v =>
            (acc.1.setRow rowIdx ((acc.1.getRow rowIdx).setCell acc.2
              { value := .str v }), acc.2 + 1))
          (ws.setRow rowIdx (ws.getRow rowIdx), 1)).1)
      worksheet
    .ok (env.insert xlsxFilePath (.xlsxFile ⟨[worksheet]⟩))
  | _ => .error (.jsError "read failure".data)

/-- The value grid of a worksheet's populated rows, for comparing extracted
CSV rows: row by row (1..rowCount), the string cell values in column
order. -/
def wsRowValues (ws : Worksheet) : List (List Str) :=
  (List.range' 1 ws.rowCount).map fun r =>
    (ws.getRow r).eachCellList.map fun entry => jsToString entry.2.value

/-! ### Concrete claim inputs -/

/-- Column specs `["Nome", {value: "Idade"}]`. -/
def c1columns : List ColumnSpec :=
  [.label "Nome".data, .spec "Idade".data none none none false]

/-- Rows `[{nome: "Ana", idade: 30}]`. -/
def c1rows : List Record :=
  [[("nome".data, .str "Ana".data), ("idade".data, .num 30)]]

/-- The expected extracted record `{nome: "Ana", idade: "30"}`. -/
def c1record : Record :=
  [("nome".data, .str "Ana".data), ("idade".data, .str "30".data)]

/-- A sheet whose header is `Data`, row 2 a fine string, row 3 an invalid
date: formatting row 3 throws mid-extraction. -/
def c2sheet : Worksheet :=
  { wsname := "Dados".data
    rows := [(1, ⟨[(1, { value := .str "Data".data })]⟩),
             (2, ⟨[(1, { value := .str "x".data })]⟩),
             (3, ⟨[(1, { value := .date none })]⟩)] }

/-- File system holding only the claim-C2 workbook. -/
def c2env : Env :=
  fun p => if p = "dados.xlsx".data then some (.xlsxFile ⟨[c2sheet]⟩) else none

/-- The record extracted from row 2 of `c2sheet` — what the claim says the
truncated extraction should return. -/
def c2row2record : Record := [("data".data, .str "x".data)]

/-- A sheet whose single header cell reads `Nome` (mixed case). -/
def c3sheet : Worksheet :=
  { wsname := "S".data
    rows := [(1, ⟨[(1, { value := .str "Nome".data })]⟩)] }

/-- The spec's dedup scenario: two identical ordered value lists, then the
same values reordered. -/
def c4session : List (List Str) :=
  [["Ativo".data, "Inativo".data],
   ["Ativo".data, "Inativo".data],
   ["Inativo".data, "Ativo".data]]

/-- A session whose second list has the same values as the first in a
different order, yet the same pipe-joined concatenation
(`"a" | "a|a"` versus `"a|a" | "a"`, both `"a|a|a"`). -/
def c4collision : List (List Str) :=
  [["a".data, "a|a".data], ["a|a".data, "a".data]]

/-- A one-column construction whose row value is the falsy number `0`. -/
def c5env : Env :=
  createExcelXlsx (fun _ => none) "S".data [.label "A".data]
    [[("a".data, .num 0)]] "o.xlsx".data none none

/-- The cell the configurator wrote at row 2, column 1 of that sheet. -/
def c5cellValue : JSValue :=
  match c5env "o.xlsx".data with
  | some (.xlsxFile wb) => ((wb.sheets.headD { wsname := [] }).getRow 2).getCell 1 |>.value
  | _ => .undefined

/-- The instant 2024-01-15T14:30 (UTC clock fields), in minutes since the epoch. -/
def t20240115 : Int := 19737 * 1440 + 14 * 60 + 30

/-- The CSV written by `createExcelCsv` for columns `["a","b"]`, rows
`[{a:"1", b:"2"}]`. -/
def c8env : Env :=
  createExcelCsv (fun _ => none) "f.csv".data ["a".data, "b".data]
    [[("a".data, .str "1".data), ("b".data, .str "2".data)]]

/-- Write columns/rows to a CSV at `csvPath`, read it back into an XLSX at
`xlsxPath`, and return the produced row grid. -/
def csvRoundTripRows (env : Env) (csvPath xlsxPath aba : Str) (columns : List Str)
    (rows : List Record) : Option (List (List Str)) :=
  match csvToXlsx (createExcelCsv env csvPath columns rows) csvPath xlsxPath aba with
  | .ok env2 =>
    match env2 xlsxPath with
    | some (.xlsxFile wb) => some (wsRowValues (wb.sheets.headD { wsname := [] }))
    | _ => none
  | .error _ => none

/-- The row grid produced by reading that CSV back through `csvToXlsx`. -/
def c8rows : Option (List (List Str)) :=
  match csvToXlsx c8env "f.csv".data "g.xlsx".data "Planilha1".data with
  | .ok env2 =>
    match env2 "g.xlsx".data with
    | some (.xlsxFile wb) => some (wsRowValues (wb.sheets.headD { wsname := [] }))
    | _ => none
  | .error _ => none

/-- The duplicate-header extraction scenario: headers `["Nome","Nome"]` over
one data row. -/
def c9headerRow : SheetRow :=
  ⟨[(1, { value := .str "Nome".data }), (2, { value := .str "Nome".data })]⟩

/-- The data row under the duplicate headers. -/
def c9dataRow : SheetRow :=
  ⟨[(1, { value := .str "A".data }), (2, { value := .str "B".data })]⟩

/-- A list all of whose characters are JS whitespace. -/
def AllWs (w : Str) : Prop := ∀ c ∈ w, isJsSpace c = true

/-- The lower-then-transliterate composite used by the normalizer. -/
def lowerUni (s : Str) : Str := unidecodeStr (jsToLower s)

/-! ## Helper lemmas -/

theorem digitVal_digitChar {m : Nat} (h : m < 10) : digitVal (Nat.digitChar m) = m := by
  interval_cases m <;> rfl

theorem parseDec_append_digit (xs : Str) (c : Char) :
    parseDec (xs ++ [c]) = parseDec xs * 10 + digitVal c := by
  simp [parseDec, List.foldl_concat]

theorem parseDec_natDecAux : ∀ (fuel n : Nat), n ≤ fuel → parseDec (natDecAux fuel n) = n
  | 0, n, h => by
    simp only [Nat.le_zero] at h
    simp [natDecAux, h, parseDec]
  | fuel + 1, n, h => by
    by_cases h0 : n = 0
    · simp [natDecAux, h0, parseDec]
    · have hdiv : n / 10 ≤ fuel := by
        have : n / 10 < n := Nat.div_lt_self (Nat.pos_of_ne_zero h0) (by omega)
        omega
      have ih := parseDec_natDecAux fuel (n / 10) hdiv
      simp only [natDecAux, h0, if_false]
      rw [parseDec_append_digit, ih, digitVal_digitChar (Nat.mod_lt n (by omega))]
      omega

theorem parseDec_natDec (n : Nat) : parseDec (natDec n) = n := by
  by_cases h0 : n = 0
  · simp [natDec, h0, parseDec, digitVal]
  · simp only [natDec, h0, if_false]
    exact parseDec_natDecAux n n le_rfl

theorem natDec_injective : Function.Injective natDec := by
  intro m n h
  have := congrArg parseDec h
  rwa [parseDec_natDec, parseDec_natDec] at this

theorem suffixedKey_injective (base : Str) {j k : Nat}
    (h : suffixedKey base j = suffixedKey base k) : j = k := by
  unfold suffixedKey at h
  have h2 := List.append_cancel_left h
  exact natDec_injective (List.cons_injective h2)

theorem trimL_append_ws {w : Str} (hw : AllWs w) (x : Str) :
    trimL (w ++ x) = trimL x := by
  induction w with
  | nil => rfl
  | cons c w ih =>
    have hc : isJsSpace c = true := hw c (by simp)
    have hw' : AllWs w := fun d hd => hw d (by simp [hd])
    simp [trimL, List.dropWhile_cons, hc] at ih ⊢
    exact ih hw'

theorem trimL_ws_eq_nil {w : Str} (hw : AllWs w) : trimL w = [] := by
  have := trimL_append_ws hw []
  simpa using this

theorem trimR_append_ws {w : Str} (hw : AllWs w) (x : Str) :
    trimR (x ++ w) = trimR x := by
  unfold trimR
  rw [List.reverse_append]
  have hwr : AllWs w.reverse := fun c hc => hw c (List.mem_reverse.mp hc)
  have h := trimL_append_ws hwr x.reverse
  unfold trimL at h
  rw [h]

theorem trimR_trimL_append_ws {w : Str} (hw : AllWs w) (x : Str) :
    trimR (trimL (x ++ w)) = trimR (trimL x) := by
  induction x with
  | nil =>
    rw [List.nil_append, trimL_ws_eq_nil hw]
    rfl
  | cons c x ih =>
    by_cases hc : isJsSpace c = true
    · have h1 : trimL ((c :: x) ++ w) = trimL (x ++ w) := by
        simp [trimL, List.dropWhile_cons, hc]
      have h2 : trimL (c :: x) = trimL x := by
        simp [trimL, List.dropWhile_cons, hc]
      rw [h1, h2, ih]
    · have h1 : trimL ((c :: x) ++ w) = (c :: x) ++ w := by
        simp [trimL, List.dropWhile_cons, hc]
      have h2 : trimL (c :: x) = c :: x := by
        simp [trimL, List.dropWhile_cons, hc]
      rw [h1, h2]
      exact trimR_append_ws hw (c :: x)

theorem lowerUni_append (a b : Str) : lowerUni (a ++ b) = lowerUni a ++ lowerUni b := by
  simp [lowerUni, jsToLower, unidecodeStr, List.map_append, List.flatMap_append]

theorem allWs_of_all {l : Str} (h : l.all isJsSpace = true) : AllWs l :=
  fun c hc => List.all_eq_true.mp h c hc

theorem ws_lowerUni_char {c : Char} (hc : isJsSpace c = true) :
    AllWs (unidecodeChar (jsToLowerChar c)) := by
  simp only [isJsSpace, Bool.or_eq_true, decide_eq_true_eq] at hc
  rcases hc with ((((((((h | h) | h) | h) | h) | h) | h) | h) | h) | h <;>
    subst h <;> exact allWs_of_all (by decide)

theorem allWs_lowerUni {w : Str} (hw : AllWs w) : AllWs (lowerUni w) := by
  intro d hd
  simp only [lowerUni, jsToLower, unidecodeStr] at hd
  rw [List.flatMap_map] at hd
  obtain ⟨c, hc, hdc⟩ := List.mem_flatMap.mp hd
  exact ws_lowerUni_char (hw c hc) d hdc

theorem allWs_takeWhile (s : Str) : AllWs (s.takeWhile isJsSpace) :=
  fun _ hc => List.mem_takeWhile_imp hc

theorem conj_trim (y : Str) :
    trimL (trimR y) = (trimR (trimL y.reverse)).reverse := by
  simp [trimL, trimR, List.reverse_reverse]

theorem trimL_trimR_append_ws {w : Str} (hw : AllWs w) (x : Str) :
    trimL (trimR (w ++ x)) = trimL (trimR x) := by
  rw [conj_trim (w ++ x), conj_trim x, List.reverse_append]
  have hwr : AllWs w.reverse := fun c hc => hw c (List.mem_reverse.mp hc)
  rw [trimR_trimL_append_ws hwr x.reverse]

theorem jsTrim_lowerUni_jsTrim (s : Str) :
    jsTrim (lowerUni (jsTrim s)) = jsTrim (lowerUni s) := by
  unfold jsTrim
  have hdecompR : trimR s ++ ((s.reverse.takeWhile isJsSpace).reverse) = s := by
    unfold trimR
    rw [← List.reverse_append, List.takeWhile_append_dropWhile, List.reverse_reverse]
  have hwsR : AllWs ((s.reverse.takeWhile isJsSpace).reverse) := by
    intro c hc
    exact allWs_takeWhile s.reverse c (List.mem_reverse.mp hc)
  have h1 : trimL (trimR (lowerUni s)) = trimL (trimR (lowerUni (trimR s))) := by
    conv_lhs => rw [← hdecompR]
    rw [lowerUni_append, trimR_append_ws (allWs_lowerUni hwsR)]
  have hdecompL : (trimR s).takeWhile isJsSpace ++ trimL (trimR s) = trimR s :=
    List.takeWhile_append_dropWhile isJsSpace (trimR s)
  have h2 : trimL (trimR (lowerUni (trimR s))) =
      trimL (trimR (lowerUni (trimL (trimR s)))) := by
    conv_lhs => rw [← hdecompL]
    rw [lowerUni_append]
    exact trimL_trimR_append_ws (allWs_lowerUni (allWs_takeWhile (trimR s))) _
  rw [h1, h2]

theorem joinSep_mem_decomp {c : Str} {l : List Str} (sep : Str) (hc : c ∈ l) :
    ∃ x y, joinSep sep l = x ++ c ++ y := by
  induction l with
  | nil => cases hc
  | cons a l ih =>
    rcases List.mem_cons.mp hc with h | h
    · subst h
      cases l with
      | nil => exact ⟨[], [], by simp [joinSep]⟩
      | cons b l' => exact ⟨[], sep ++ joinSep sep (b :: l'), by simp [joinSep]⟩
    · obtain ⟨x, y, hxy⟩ := ih h
      cases l with
      | nil => cases h
      | cons b l' =>
        exact ⟨a ++ sep ++ x, y, by simp [joinSep, hxy]⟩

theorem strIncludes_of_append (x c y : Str) :
    strIncludes (x ++ c ++ y) c = true := by
  unfold strIncludes
  rw [List.any_eq_true]
  refine ⟨x.length, List.mem_range.mpr ?_, ?_⟩
  · simp [List.length_append]
    omega
  · rw [List.append_assoc, List.drop_left]
    exact List.isPrefixOf_iff_prefix.mpr (List.prefix_append c y)

theorem mem_joinPipe_of_two {l : List Str} (h : 2 ≤ l.length) : '|' ∈ joinPipe l := by
  match l, h with
  | x :: y :: rest, _ =>
    simp [joinPipe, joinSep]

/-- The timezone adjustment `setMinutes(getMinutes() + getTimezoneOffset())`
exactly cancels the local-clock shift: the adjusted instant's local fields
are the original instant's UTC fields. -/
theorem localFields_adjust (t tz : Int) : localFields (t + tz) tz = dateFields t := by
  simp [localFields]

/-! ## Claim theorems -/

/-- C1: constructing a single sheet with column specs
`["Nome", {value: "Idade"}]` and rows `[{nome: "Ana", idade: 30}]` via
`createExcelXlsx`, then extracting the saved sheet via `excelToJson` with
header row 1 and data start row 2, yields exactly one record
`{nome: "Ana", idade: "30"}` (the numeric value string-coerced) — for any
prior file system and any host timezone offset. -/
theorem c1_xlsx_round_trip (env : Env) (tz : Int) :
    excelToJson
      (createExcelXlsx env "Relatorio".data c1columns c1rows "out.xlsx".data none none)
      "out.xlsx".data 2 (.byIndex 1) 1 none tz = .ok (some [c1record]) := rfl

/-- C2 (counterexample): in the `c2sheet` extraction, row 2 is accumulated
as `{data: "x"}` and row 3's formatting throws an invalid-date error, yet
`excelToJson` resolves `undefined` (`ok none`) — not the accumulated
sequence `[{data: "x"}]` the claim promises. -/
theorem c2_counterexample :
    excelToJson c2env "dados.xlsx".data 2 (.byIndex 1) 1 none 0 = .ok none ∧
    formatReplacement (setObjectReplacements (c2sheet.getRow 2) (c2sheet.getRow 1) c2sheet)
      0 = .ok c2row2record ∧
    formatReplacement (setObjectReplacements (c2sheet.getRow 3) (c2sheet.getRow 1) c2sheet)
      0 = .error (.jsError "Valor de data inválido fornecido.".data) ∧
    (Except.ok none : Except JsErr (Option (List Record))) ≠ .ok (some [c2row2record]) := by
  refine ⟨rfl, rfl, rfl, ?_⟩
  intro h
  simp at h

/-- C2 (amended): when the read-side setup succeeded and some row's
formatting throws during the row loop, the error is logged and the call
resolves `undefined` (`ok none`) — silently discarding the records
accumulated before the failure rather than returning them or failing the
caller. -/
theorem c2_row_failure_returns_undefined (env : Env) (fileExcel : Str) (initRow : Nat)
    (sheetIndex : SheetSel) (headerIndex : Nat) (necessaryColumns : Option (List Str))
    (tz : Int) (d : ExcelData) (e : JsErr)
    (hsetup : getExcelData env fileExcel necessaryColumns sheetIndex headerIndex =
      .ok (some d))
    (hinit : ¬ initRow < 1)
    (herr : excelToJsonRows d.worksheet d.headerRow initRow tz = .error e) :
    excelToJson env fileExcel initRow sheetIndex headerIndex necessaryColumns tz =
      .ok none := by
  unfold excelToJson
  rw [hsetup]
  simp [hinit, herr]

/-- Witness for C2's amended theorem at the concrete `c2env` scenario. -/
theorem c2_row_failure_returns_undefined_witness :
    excelToJson c2env "dados.xlsx".data 2 (.byIndex 1) 1 none 0 = .ok none := by
  refine c2_row_failure_returns_undefined c2env "dados.xlsx".data 2 (.byIndex 1) 1 none 0
    (ExcelData.mk c2sheet [("DATA".data, 1)] (c2sheet.getRow 1))
    (.jsError "Valor de data inválido fornecido.".data) rfl (by decide) rfl

/-- C3 (counterexample): the sheet's header text is `Nome`, stored
upper-cased as `NOME`; the required label `nome` matches it
case-insensitively (`jsToUpper` agrees on both), yet the call fails with a
missing-columns error naming `nome` — the comparison is not
case-insensitive. -/
theorem c3_counterexample :
    getSheetColumnMap c3sheet 1 none = .ok [("NOME".data, 1)] ∧
    jsToUpper "nome".data = jsToUpper "Nome".data ∧
    getSheetColumnMap c3sheet 1 (some ["nome".data]) =
      .error (.jsError (missingColumnsMessage ["nome".data])) := by
  exact ⟨rfl, rfl, rfl⟩

/-- C3 (amended): a required label is compared by exact lookup against the
stored (upper-cased) header texts — `!columnMap[column]` — so a label in a
different case does not match; when the resulting missing list is nonempty
the call fails with a `MissingColumnsError` whose message names all of the
missing labels (each missing label occurs in the message), and succeeds
otherwise. -/
theorem c3_missing_columns (columnMap : List (Str × Nat)) (necessaryColumns : List Str) :
    (necessaryColumns.filter (fun c => ((columnMap.lookup c).getD 0) == 0) = [] →
      verifyNecessaryColumns columnMap necessaryColumns = .ok ()) ∧
    (∀ missing, necessaryColumns.filter (fun c => ((columnMap.lookup c).getD 0) == 0) =
        missing →
      missing ≠ [] →
      verifyNecessaryColumns columnMap necessaryColumns =
        .error (.jsError (missingColumnsMessage missing)) ∧
      ∀ c ∈ missing, strIncludes (missingColumnsMessage missing) c = true) := by
  constructor
  · intro hnil
    unfold verifyNecessaryColumns
    simp [hnil]
  · intro missing hmissing hne
    constructor
    · unfold verifyNecessaryColumns
      rw [hmissing]
      simp [List.isEmpty_iff, hne]
    · intro c hc
      obtain ⟨x, y, hxy⟩ := joinSep_mem_decomp ", ".data hc
      unfold missingColumnsMessage
      rw [hxy]
      have : "Colunas \"".data ++ (x ++ c ++ y) ++
          "\" são necessárias para processar os dados da planilha corretamente.".data =
          ("Colunas \"".data ++ x) ++ c ++
            (y ++ "\" são necessárias para processar os dados da planilha corretamente.".data) := by
        simp
      rw [this]
      exact strIncludes_of_append _ _ _

/-- Witness for C3's amended theorem: map `{NOME: 1}`, required
`["NOME", "IDADE"]` → fails naming exactly `IDADE`, whose text occurs in the
message. -/
theorem c3_missing_columns_witness :
    verifyNecessaryColumns [("NOME".data, 1)] ["NOME".data, "IDADE".data] =
      .error (.jsError (missingColumnsMessage ["IDADE".data])) ∧
    strIncludes (missingColumnsMessage ["IDADE".data]) "IDADE".data = true := by
  have h := (c3_missing_columns [("NOME".data, 1)] ["NOME".data, "IDADE".data]).2
    ["IDADE".data] (by decide) (by decide)
  exact ⟨h.1, h.2 "IDADE".data (by decide)⟩

/-- C5 (counterexample): the configurator writes `cell.value =
valorFinal || null`, so the falsy supplied value `0` is replaced by `null`
even though the row record does hold a value for the column's key — the
cell is null without the value being absent. -/
theorem c5_counterexample :
    c5cellValue = .null ∧
    ([[("a".data, JSValue.num 0)]] : List Record).head? = some [("a".data, .num 0)] ∧
    (([("a".data, JSValue.num 0)] : Record).lookup "a".data = some (.num 0)) ∧
    (JSValue.num 0 ≠ .null) := by
  refine ⟨rfl, rfl, rfl, ?_⟩
  intro h
  simp at h

/-- The value a configurator cell write assigns, characterized: the supplied
scalar when truthy, `null` otherwise (`cell.value = valorFinal || null`). -/
theorem writeCell_value (rowData : Record) (columnConfig : PreparedColumn)
    (cell : Cell) (st : AllocState) :
    (writeCell rowData columnConfig cell st).1.value =
      (if jsTruthy (suppliedScalar rowData columnConfig.key) then
        suppliedScalar rowData columnConfig.key else .null) := by
  obtain ⟨header, key, width, validation, editable⟩ := columnConfig
  rcases hge : getProp rowData key with _ | _ | s | n | b | t | r | ⟨hv, v, note, val, prot⟩
  case rich =>
    cases hv <;> rcases val with _ | dv <;> rcases note with _ | n <;>
      rcases validation with _ | (vals | rule) <;> cases editable <;>
      simp only [writeCell, suppliedScalar, hge] <;> (try split) <;> simp
  all_goals
    rcases validation with _ | (vals | rule) <;> cases editable <;>
      simp [writeCell, suppliedScalar, hge]

/-- C5 (amended): every cell written by the Sheet Configurator is assigned
the supplied scalar value (the rich object's `value` field when a rich
object is supplied) when that value is truthy, and is assigned `null`
exactly when the supplied value is falsy — which includes, but is not
limited to, the case where the row record has no value for the column's key
(a present falsy value such as `0`, `""` or `false` is also nulled). -/
theorem c5_cell_value_assignment (rowData : Record) (columnConfig : PreparedColumn)
    (cell : Cell) (st : AllocState) :
    ((writeCell rowData columnConfig cell st).1.value =
      (if jsTruthy (suppliedScalar rowData columnConfig.key) then
        suppliedScalar rowData columnConfig.key else .null)) ∧
    ((writeCell rowData columnConfig cell st).1.value = .null ↔
      jsTruthy (suppliedScalar rowData columnConfig.key) = false) ∧
    (rowData.lookup columnConfig.key = none →
      (writeCell rowData columnConfig cell st).1.value = .null) := by
  have hv := writeCell_value rowData columnConfig cell st
  refine ⟨hv, ?_, ?_⟩
  · rw [hv]
    by_cases h : jsTruthy (suppliedScalar rowData columnConfig.key) = true
    · simp only [h, if_true]
      constructor
      · intro heq
        rw [heq] at h
        simp [jsTruthy] at h
      · intro hfalse
        exact absurd hfalse (by simp [h])
    · simp [h]
  · intro hnone
    have hsup : suppliedScalar rowData columnConfig.key = .undefined := by
      simp [suppliedScalar, getProp, hnone]
    rw [hv, hsup]
    simp [jsTruthy]

/-- Witness for C5's amended theorem: a present-but-falsy `0` is written as
`null`. -/
theorem c5_cell_value_assignment_witness :
    (writeCell [("a".data, .num 0)] ⟨"A".data, "a".data, none, none, false⟩ {} {}).1.value =
      .null := by
  exact (c5_cell_value_assignment [("a".data, .num 0)]
    ⟨"A".data, "a".data, none, none, false⟩ {} {}).2.1.mpr (by decide)

/-- C6 (counterexample): on `"a  b"` (two consecutive spaces) the source
replaces each space with an underscore, yielding `"a__b"`, while the claim's
run-collapsing pipeline yields `"a_b"`. -/
theorem c6_counterexample :
    formatTextToIdentifier "a  b".data = "a__b".data ∧
    claimedIdentifierPipeline "a  b".data = "a_b".data ∧
    formatTextToIdentifier "a  b".data ≠ claimedIdentifierPipeline "a  b".data := by
  exact ⟨rfl, rfl, by decide⟩

/-- C6 (amended): for every string input the Identifier Normalizer equals
`trim → lowercase → strip diacritics → trim → replace each space character
with "_"` — per-space replacement, not run collapsing.  (The source discards
the result of the initial trim, which this equation shows to be
observationally irrelevant; no other character classes are filtered, and the
function is pure and deterministic.) -/
theorem c6_identifier_pipeline (s : Str) :
    formatTextToIdentifier s = amendedIdentifierPipeline s := by
  simp only [formatTextToIdentifier, amendedIdentifierPipeline]
  have h := jsTrim_lowerUni_jsTrim s
  unfold lowerUni at h
  rw [h]

/-- C7: a date-valued field adjusted by the host timezone offset renders
from the value's UTC clock fields regardless of the host offset — `HH:MM`
when the field identifier contains `horario`, the long localized form when
it contains `extenso`, `DD/MM/YYYY` otherwise; an unparseable date raises
the invalid-date error; and concretely, key `data_horario` with value
2024-01-15T14:30 yields `"14:30"` while key `data` yields `"15/01/2024"`. -/
theorem c7_date_formatting (key : Str) (t tz : Int) :
    formatDate key none tz = .error (.jsError "Valor de data inválido fornecido.".data) ∧
    formatDate key (some t) tz =
      .ok (if strIncludes key "horario".data then getScheduleDate t 0
           else if strIncludes key "extenso".data then getExtendedDate t 0
           else formatFullDate t 0) ∧
    formatDate "data_horario".data (some t20240115) tz = .ok "14:30".data ∧
    formatDate "data".data (some t20240115) tz = .ok "15/01/2024".data := by
  have hgen : ∀ (k : Str) (u : Int), formatDate k (some u) tz =
      .ok (if strIncludes k "horario".data then getScheduleDate u 0
           else if strIncludes k "extenso".data then getExtendedDate u 0
           else formatFullDate u 0) := by
    intro k u
    have h1 : getScheduleDate (u + tz) tz = getScheduleDate u 0 := by
      simp [getScheduleDate, localFields]
    have h2 : getExtendedDate (u + tz) tz = getExtendedDate u 0 := by
      simp [getExtendedDate, localFields]
    have h3 : formatFullDate (u + tz) tz = formatFullDate u 0 := by
      simp [formatFullDate, localFields]
    simp only [formatDate]
    rw [h1, h2, h3]
    split
    · rfl
    · split <;> rfl
  refine ⟨rfl, hgen key t, ?_, ?_⟩
  · rw [hgen]
    rfl
  · rw [hgen]
    rfl

/-- C8 (counterexample): the CSV round trip of columns `["a","b"]` and rows
`[{a:"1", b:"2"}]` yields `[["\"a\"","\"b\""],["\"1\"","\"2\""]]` — the
writer's quote characters survive the non-quote-aware split — not
`[["a","b"],["1","2"]]` as claimed. -/
theorem c8_counterexample :
    c8rows = some [["\"a\"".data, "\"b\"".data], ["\"1\"".data, "\"2\"".data]] ∧
    c8rows ≠ some [["a".data, "b".data], ["1".data, "2".data]] := by
  exact ⟨rfl, by decide⟩

/-- C8 (amended): for any prior file system and any paths, writing columns
`["a","b"]` and rows `[{a:"1", b:"2"}]` via `createExcelCsv` and reading the
file back via `csvToXlsx` yields exactly the rows
`[["\"a\"","\"b\""],["\"1\"","\"2\""]]` after BOM stripping (the BOM is
removed by the reader's `trim`; the quotes are preserved). -/
theorem c8_csv_round_trip (env : Env) (csvPath xlsxPath : Str) :
    csvRoundTripRows env csvPath xlsxPath "Planilha1".data ["a".data, "b".data]
      [[("a".data, .str "1".data), ("b".data, .str "2".data)]] =
      some [["\"a\"".data, "\"b\"".data], ["\"1\"".data, "\"2\"".data]] := by
  unfold csvRoundTripRows createExcelCsv csvToXlsx
  simp only [Env.insert, if_pos]
  decide

/-- C10: when any step of the read-side setup pipeline throws — unreadable
workbook file, worksheet not resolvable by index (the `sheetIndex.slice`
`TypeError` on a number) or by name, missing required columns, or an invalid
header row index — `getExcelData` swallows the error and resolves
`undefined`, and `excelToJson` consequently fails with the generic
destructuring `TypeError`: the caller never sees `.error e` for an original
error `e` other than that fixed `TypeError`, and in particular never a typed
`Error` such as the sheet-not-found or missing-columns one. -/
theorem c10_setup_error_swallowed (env : Env) (fileExcel : Str)
    (necessaryColumns : Option (List Str)) (sheetIndex : SheetSel) (headerIndex : Nat)
    (e : JsErr) (initRow : Nat) (tz : Int)
    (hfile : fileExcel.isEmpty = false)
    (hsetup : readSetup env fileExcel necessaryColumns sheetIndex headerIndex =
      .error e) :
    getExcelData env fileExcel necessaryColumns sheetIndex headerIndex = .ok none ∧
    excelToJson env fileExcel initRow sheetIndex headerIndex necessaryColumns tz =
      .error (.typeError "Cannot destructure property 'worksheet' of undefined".data) ∧
    (e ≠ .typeError "Cannot destructure property 'worksheet' of undefined".data →
      excelToJson env fileExcel initRow sheetIndex headerIndex necessaryColumns tz ≠
        .error e) ∧
    (∀ m, JsErr.typeError "Cannot destructure property 'worksheet' of undefined".data ≠
      .jsError m) := by
  have hget : getExcelData env fileExcel necessaryColumns sheetIndex headerIndex =
      .ok none := by
    unfold getExcelData
    simp [hfile, hsetup]
  have hjson : excelToJson env fileExcel initRow sheetIndex headerIndex
      necessaryColumns tz =
      .error (.typeError "Cannot destructure property 'worksheet' of undefined".data) := by
    unfold excelToJson
    rw [hget]
  refine ⟨hget, hjson, ?_, by simp⟩
  intro hne heq
  rw [hjson] at heq
  exact hne (Except.error.inj heq).symm

/-- Witness for C10 at a concrete input exercising the by-index case the
claim enumerates: worksheet 7 does not exist, so the miss hits
`sheetIndex.slice` on a number — a `TypeError` — which is swallowed, and the
caller sees the destructuring `TypeError` instead of it. -/
theorem c10_setup_error_swallowed_witness :
    excelToJson c2env "dados.xlsx".data 2 (.byIndex 7) 1 none 0 =
      .error (.typeError "Cannot destructure property 'worksheet' of undefined".data) ∧
    excelToJson c2env "dados.xlsx".data 2 (.byIndex 7) 1 none 0 ≠
      .error (.typeError "sheetIndex.slice is not a function".data) := by
  have h := c10_setup_error_swallowed c2env "dados.xlsx".data none (.byIndex 7) 1
    (.typeError "sheetIndex.slice is not a function".data) 2 0 rfl rfl
  exact ⟨h.2.1, h.2.2.1 (by decide)⟩

/-! ### Key-collision loop characterization (towards C9) -/

theorem keyCandidate_one (base : Str) : keyCandidate base 1 = base := rfl

theorem keyCandidate_of_two_le {base : Str} {k : Nat} (h : 2 ≤ k) :
    keyCandidate base k = suffixedKey base k := by
  unfold keyCandidate
  have : k ≠ 1 := by omega
  simp [this]

/-- The collision loop returns the first untaken candidate, provided enough
fuel remains to reach one. -/
theorem resolveKeyGo_first_free (keys : List Str) (base : Str) :
    ∀ (fuel c : Nat), 1 ≤ c →
    (∃ k, c ≤ k ∧ k ≤ c + fuel ∧ keys.contains (keyCandidate base k) = false) →
    ∃ k, c ≤ k ∧ keys.contains (keyCandidate base k) = false ∧
      (∀ j, c ≤ j → j < k → keys.contains (keyCandidate base j) = true) ∧
      resolveKeyGo keys base fuel (keyCandidate base c) c = keyCandidate base k
  | 0, c, _, hex => by
    obtain ⟨k, hck, hkc, hfree⟩ := hex
    have : k = c := by omega
    subst this
    exact ⟨k, le_rfl, hfree, fun j h1 h2 => absurd (lt_of_le_of_lt h1 h2) (lt_irrefl _),
      rfl⟩
  | fuel + 1, c, hc, hex => by
    by_cases hcontains : keys.contains (keyCandidate base c) = true
    · have hnext : keyCandidate base (c + 1) = suffixedKey base (c + 1) :=
        keyCandidate_of_two_le (by omega)
      obtain ⟨k, hck, hkc, hfree⟩ := hex
      have hkne : k ≠ c := by
        intro h
        rw [h] at hfree
        rw [hcontains] at hfree
        cases hfree
      have hex' : ∃ k, c + 1 ≤ k ∧ k ≤ (c + 1) + fuel ∧
          keys.contains (keyCandidate base k) = false :=
        ⟨k, by omega, by omega, hfree⟩
      obtain ⟨k', hck', hfree', hall', hres'⟩ :=
        resolveKeyGo_first_free keys base fuel (c + 1) (by omega) hex'
      refine ⟨k', by omega, hfree', ?_, ?_⟩
      · intro j h1 h2
        rcases Nat.eq_or_lt_of_le h1 with h | h
        · rw [← h]
          exact hcontains
        · exact hall' j h h2
      · have hstep : resolveKeyGo keys base (fuel + 1) (keyCandidate base c) c =
            if keys.contains (keyCandidate base c) then
              resolveKeyGo keys base fuel (suffixedKey base (c + 1)) (c + 1)
            else keyCandidate base c := rfl
        rw [hstep, hcontains, if_pos rfl, ← hnext]
        exact hres'
    · have hfree : keys.contains (keyCandidate base c) = false :=
        Bool.eq_false_iff.mpr hcontains
      refine ⟨c, le_rfl, hfree, fun j h1 h2 => absurd (lt_of_le_of_lt h1 h2) (lt_irrefl _),
        ?_⟩
      have hstep : resolveKeyGo keys base (fuel + 1) (keyCandidate base c) c =
          if keys.contains (keyCandidate base c) then
            resolveKeyGo keys base fuel (suffixedKey base (c + 1)) (c + 1)
          else keyCandidate base c := rfl
      rw [hstep, hfree]
      simp

/-- Embeds `List.lookup`-free membership bridge: `contains` is membership. -/
theorem contains_iff_mem {l : List Str} {a : Str} : l.contains a = true ↔ a ∈ l :=
  List.elem_iff

/-- Pigeonhole: some candidate within the loop's fuel budget is untaken,
because the suffixed candidates are pairwise distinct and outnumber the
existing keys. -/
theorem exists_free_candidate (keys : List Str) (base : Str) :
    ∃ k, 1 ≤ k ∧ k ≤ 1 + (keys.length + 2) ∧
      keys.contains (keyCandidate base k) = false := by
  by_contra hcon
  push_neg at hcon
  have hall : ∀ k, 2 ≤ k → k ≤ keys.length + 3 →
      suffixedKey base k ∈ keys := by
    intro k h2 h3
    have h := hcon k (by omega) (by omega)
    rw [keyCandidate_of_two_le h2] at h
    rcases Bool.eq_false_or_eq_true (keys.contains (suffixedKey base k)) with hb | hb
    · exact contains_iff_mem.mp hb
    · exact absurd hb h
  set candList := (List.range' 2 (keys.length + 2)).map (suffixedKey base) with hcand
  have hnodup : candList.Nodup := by
    refine List.Nodup.map ?_ (List.nodup_range' 2 (keys.length + 2))
    intro a b hab
    exact suffixedKey_injective base hab
  have hsub : candList ⊆ keys := by
    intro x hx
    rw [hcand] at hx
    obtain ⟨k, hk, hfk⟩ := List.mem_map.mp hx
    obtain ⟨idx, hidx, hkeq⟩ := List.mem_range'.mp hk
    subst hfk
    exact hall k (by omega) (by omega)
  have hcard : candList.length ≤ keys.length := by
    calc candList.length = candList.toFinset.card :=
          (List.toFinset_card_of_nodup hnodup).symm
      _ ≤ keys.toFinset.card := by
          apply Finset.card_le_card
          intro x hx
          rw [List.mem_toFinset] at hx ⊢
          exact hsub hx
      _ ≤ keys.length := List.toFinset_card_le keys
  have hlen : candList.length = keys.length + 2 := by
    rw [hcand, List.length_map, List.length_range']
  omega

/-- C9 (as claimed): when the header identifier is already a key of the
record under construction, the key actually used is the identifier suffixed
with `_2`, `_3`, …, taking the first suffix not yet present (an untaken
identifier is used bare); and concretely, duplicate headers
`["Nome","Nome"]` yield the keys `["nome", "nome_2"]` in encounter order. -/
theorem c9_duplicate_key_suffixing (keys : List Str) (base : Str) :
    (keys.contains base = false → resolveKey keys base = base) ∧
    (keys.contains base = true →
      ∃ k, 2 ≤ k ∧ resolveKey keys base = suffixedKey base k ∧
        keys.contains (suffixedKey base k) = false ∧
        ∀ j, 2 ≤ j → j < k → keys.contains (suffixedKey base j) = true) ∧
    (setObjectReplacements c9dataRow c9headerRow { wsname := [] } =
      [("nome".data, .str "A".data), ("nome_2".data, .str "B".data)]) := by
  refine ⟨?_, ?_, rfl⟩
  · intro hfree
    have hstep : resolveKey keys base =
        if keys.contains base then
          resolveKeyGo keys base (keys.length + 1) (suffixedKey base 2) 2
        else base := rfl
    rw [hstep, hfree]
    simp
  · intro htaken
    obtain ⟨k, hk1, hkb, hfree⟩ := exists_free_candidate keys base
    obtain ⟨k', hk1', hfree', hall', hres'⟩ :=
      resolveKeyGo_first_free keys base (keys.length + 2) 1 le_rfl
        ⟨k, hk1, by omega, hfree⟩
    have hk2' : 2 ≤ k' := by
      rcases Nat.eq_or_lt_of_le hk1' with h | h
      · rw [← h, keyCandidate_one] at hfree'
        rw [htaken] at hfree'
        cases hfree'
      · omega
    refine ⟨k', hk2', ?_, ?_, ?_⟩
    · rw [← keyCandidate_of_two_le hk2']
      rw [← hres']
      rfl
    · rw [← keyCandidate_of_two_le hk2']
      exact hfree'
    · intro j h2 hj
      have := hall' j (by omega) hj
      rwa [keyCandidate_of_two_le h2] at this

/-- Witness for C9: against the existing keys `["nome"]`, the identifier
`nome` resolves to `nome_2`. -/
theorem c9_duplicate_key_suffixing_witness :
    resolveKey ["nome".data] "nome".data = "nome_2".data := by
  obtain ⟨k, hk2, hres, hfree, hall⟩ :=
    (c9_duplicate_key_suffixing ["nome".data] "nome".data).2.1 (by decide)
  have hk : k = 2 := by
    by_contra hne
    have h3 : 2 < k := lt_of_le_of_ne hk2 (Ne.symm hne)
    have := hall 2 le_rfl h3
    revert this
    decide
  subst hk
  rw [hres]
  rfl

/-! ### Allocator session lemmas (towards C4) -/

theorem allocStep_reuse {st : AllocState} {vals : List Str} {s : Nat}
    (h : st.cache.lookup (joinPipe vals) = some s) :
    allocStep st vals =
      ((mkSelectRule s (s + vals.length - 1), s, s + vals.length - 1), st) := by
  simp only [allocStep]
  rw [h]

theorem allocStep_fresh {st : AllocState} {vals : List Str}
    (h : st.cache.lookup (joinPipe vals) = none) :
    allocStep st vals =
      ((mkSelectRule (st.hiddenRows.length + 1)
          (st.hiddenRows.length + 1 + vals.length - 1),
        st.hiddenRows.length + 1, st.hiddenRows.length + 1 + vals.length - 1),
       { hiddenRows := st.hiddenRows ++ vals,
         cache := (joinPipe vals, st.hiddenRows.length + 1) :: st.cache }) := by
  simp only [allocStep]
  rw [h]

/-- Every allocation result is a select rule over the range
`start .. start + length - 1`, and afterwards the cache resolves the
request's key to that start row. -/
theorem allocStep_spec (st : AllocState) (vals : List Str) :
    ∃ s, (allocStep st vals).1 =
        (mkSelectRule s (s + vals.length - 1), s, s + vals.length - 1) ∧
      (allocStep st vals).2.cache.lookup (joinPipe vals) = some s := by
  cases h : st.cache.lookup (joinPipe vals) with
  | some s =>
    refine ⟨s, ?_, ?_⟩ <;> rw [allocStep_reuse h]
    exact h
  | none =>
    refine ⟨st.hiddenRows.length + 1, ?_, ?_⟩ <;> rw [allocStep_fresh h]
    simp [List.lookup_cons]

theorem runAllocFrom_length (st : AllocState) (reqs : List (List Str)) :
    (runAllocFrom st reqs).length = reqs.length := by
  induction reqs generalizing st with
  | nil => rfl
  | cons vals rest ih =>
    simp [runAllocFrom, ih]

theorem allocStateFrom_append (st : AllocState) (l1 l2 : List (List Str)) :
    allocStateFrom st (l1 ++ l2) = allocStateFrom (allocStateFrom st l1) l2 := by
  induction l1 generalizing st with
  | nil => rfl
  | cons vals rest ih =>
    simp [allocStateFrom, ih]

theorem runAllocFrom_getD (st : AllocState) (reqs : List (List Str)) (i : Nat)
    (hi : i < reqs.length) :
    (runAllocFrom st reqs).getD i (mkSelectRule 0 0, 0, 0) =
      (allocStep (allocStateFrom st (reqs.take i)) (reqs.getD i [])).1 := by
  induction reqs generalizing st i with
  | nil => cases hi
  | cons vals rest ih =>
    cases i with
    | zero =>
      simp [runAllocFrom, allocStateFrom, List.getD]
    | succ i =>
      have hi' : i < rest.length := by simpa using hi
      simp only [runAllocFrom, List.take_succ_cons, List.getD_cons_succ]
      rw [show (allocStateFrom st (vals :: rest.take i)) =
        allocStateFrom (allocStep st vals).2 (rest.take i) from rfl]
      exact ih (allocStep st vals).2 i hi'

theorem allocStep_rows_prefix (st : AllocState) (vals : List Str) :
    ∃ e, (allocStep st vals).2.hiddenRows = st.hiddenRows ++ e := by
  cases h : st.cache.lookup (joinPipe vals) with
  | some s => exact ⟨[], by rw [allocStep_reuse h]; simp⟩
  | none => exact ⟨vals, by rw [allocStep_fresh h]⟩

theorem allocStateFrom_rows_prefix (st : AllocState) (l : List (List Str)) :
    ∃ ext, (allocStateFrom st l).hiddenRows = st.hiddenRows ++ ext := by
  induction l generalizing st with
  | nil => exact ⟨[], by simp [allocStateFrom]⟩
  | cons vals rest ih =>
    obtain ⟨e0, he0⟩ := allocStep_rows_prefix st vals
    obtain ⟨ext, hext⟩ := ih (allocStep st vals).2
    refine ⟨e0 ++ ext, ?_⟩
    show (allocStateFrom (allocStep st vals).2 rest).hiddenRows = _
    rw [hext, he0, List.append_assoc]

theorem allocStep_lookup_stable {st : AllocState} {k : Str} {s : Nat}
    (h : st.cache.lookup k = some s) (vals : List Str) :
    (allocStep st vals).2.cache.lookup k = some s := by
  cases hl : st.cache.lookup (joinPipe vals) with
  | some s' => rw [allocStep_reuse hl]; exact h
  | none =>
    rw [allocStep_fresh hl]
    have hne : (k == joinPipe vals) = false := by
      rcases Bool.eq_false_or_eq_true (k == joinPipe vals) with hb | hb
      · have : k = joinPipe vals := by simpa using hb
        rw [this] at h
        rw [h] at hl
        cases hl
      · exact hb
    simp only [List.lookup_cons, hne]
    exact h

theorem allocStateFrom_lookup_stable {st : AllocState} {k : Str} {s : Nat}
    (h : st.cache.lookup k = some s) (l : List (List Str)) :
    (allocStateFrom st l).cache.lookup k = some s := by
  induction l generalizing st with
  | nil => exact h
  | cons vals rest ih =>
    exact ih (allocStep_lookup_stable h vals)

/-- A key misses the cache exactly when it missed the starting cache and is
not the pipe-join of any processed request. -/
theorem allocStateFrom_lookup_none (st : AllocState) (k : Str) (l : List (List Str)) :
    (allocStateFrom st l).cache.lookup k = none ↔
      st.cache.lookup k = none ∧ k ∉ l.map joinPipe := by
  induction l generalizing st with
  | nil => simp [allocStateFrom]
  | cons vals rest ih =>
    show (allocStateFrom (allocStep st vals).2 rest).cache.lookup k = none ↔ _
    rw [ih]
    cases hl : st.cache.lookup (joinPipe vals) with
    | some s =>
      rw [allocStep_reuse hl]
      constructor
      · rintro ⟨hnone, hnotin⟩
        have hkne : k ≠ joinPipe vals := by
          intro he
          rw [he, hl] at hnone
          cases hnone
        exact ⟨hnone, by simp [hkne, hnotin]⟩
      · rintro ⟨hnone, hnotin⟩
        exact ⟨hnone, fun hmem => hnotin (by simp [hmem])⟩
    | none =>
      rw [allocStep_fresh hl]
      constructor
      · rintro ⟨hnone, hnotin⟩
        simp only [List.lookup_cons] at hnone
        rcases hbeq : (k == joinPipe vals) with _ | _
        · have hkne : k ≠ joinPipe vals := by
            intro he
            rw [he] at hbeq
            simp at hbeq
          rw [hbeq] at hnone
          exact ⟨hnone, by simp [hkne, hnotin]⟩
        · rw [hbeq] at hnone
          cases hnone
      · rintro ⟨hnone, hnotin⟩
        have hkne : k ≠ joinPipe vals := fun he => hnotin (by simp [he])
        have hbeq : (k == joinPipe vals) = false := by
          simpa using hkne
        simp only [List.lookup_cons, hbeq]
        exact ⟨hnone, fun hmem => hnotin (by simp [hmem])⟩

theorem lookup_mem {l : List (Str × Nat)} {k : Str} {v : Nat}
    (h : l.lookup k = some v) : (k, v) ∈ l := by
  induction l with
  | nil => cases h
  | cons p rest ih =>
    obtain ⟨a, b⟩ := p
    simp only [List.lookup_cons] at h
    rcases hbeq : (k == a) with _ | _
    · rw [hbeq] at h
      exact List.mem_cons_of_mem _ (ih h)
    · rw [hbeq] at h
      have ha : k = a := by simpa using hbeq
      cases h
      rw [← ha]
      exact List.mem_cons_self _ _

theorem cacheInv_empty : CacheInv {} := by
  intro p hp
  cases hp

theorem cacheInv_step {st : AllocState} (hinv : CacheInv st) (vals : List Str) :
    CacheInv (allocStep st vals).2 := by
  cases hl : st.cache.lookup (joinPipe vals) with
  | some s =>
    rw [allocStep_reuse hl]
    exact hinv
  | none =>
    rw [allocStep_fresh hl]
    intro p hp
    rcases List.mem_cons.mp hp with h | h
    · subst h
      refine ⟨by omega, vals, rfl, by simp only [List.length_append]; omega⟩
    · obtain ⟨h1, v, hv, hb⟩ := hinv p h
      refine ⟨h1, v, hv, ?_⟩
      rw [List.length_append]
      omega

theorem cacheInv_from (st : AllocState) (hinv : CacheInv st) (l : List (List Str)) :
    CacheInv (allocStateFrom st l) := by
  induction l generalizing st with
  | nil => exact hinv
  | cons vals rest ih =>
    exact ih _ (cacheInv_step hinv vals)

/-- Two permuted but distinct lists have at least two elements. -/
theorem two_le_length_of_perm_ne {a b : List Str} (hperm : a.Perm b) (hne : a ≠ b) :
    2 ≤ a.length := by
  match a, hperm, hne with
  | [], hperm, hne =>
    exact absurd (List.Perm.eq_nil hperm.symm).symm hne
  | [x], hperm, hne =>
    exact absurd (List.perm_singleton.mp hperm.symm).symm hne
  | x :: y :: rest, _, _ =>
    simp only [List.length_cons]
    omega

theorem take_succ_getD (l : List (List Str)) (i : Nat) (hi : i < l.length) :
    l.take (i + 1) = l.take i ++ [l.getD i []] := by
  rw [List.take_succ, List.getElem?_eq_getElem hi]
  rw [List.getD_eq_getElem?_getD, List.getElem?_eq_getElem hi]
  rfl

/-- Each session result is the select rule over a range starting at the row
the cache holds for its key right after the step. -/
theorem allocResult_spec (reqs : List (List Str)) (i : Nat) (hi : i < reqs.length) :
    ∃ s, allocResult reqs i =
        (mkSelectRule s (s + (reqs.getD i []).length - 1), s,
          s + (reqs.getD i []).length - 1) ∧
      (allocStateFrom {} (reqs.take (i + 1))).cache.lookup
        (joinPipe (reqs.getD i [])) = some s := by
  have hres : allocResult reqs i =
      (allocStep (allocStateFrom {} (reqs.take i)) (reqs.getD i [])).1 :=
    runAllocFrom_getD {} reqs i hi
  have hstate : allocStateFrom {} (reqs.take (i + 1)) =
      (allocStep (allocStateFrom {} (reqs.take i)) (reqs.getD i [])).2 := by
    rw [take_succ_getD reqs i hi, allocStateFrom_append]
    rfl
  obtain ⟨s, h1, h2⟩ := allocStep_spec (allocStateFrom {} (reqs.take i)) (reqs.getD i [])
  exact ⟨s, by rw [hres, h1], by rw [hstate]; exact h2⟩

/-- Cache entries survive from any prefix of the session to any longer
prefix. -/
theorem lookup_stable_between (reqs : List (List Str)) {m j : Nat} (hmj : m ≤ j)
    {k : Str} {s : Nat}
    (h : (allocStateFrom {} (reqs.take m)).cache.lookup k = some s) :
    (allocStateFrom {} (reqs.take j)).cache.lookup k = some s := by
  have : reqs.take j = reqs.take m ++ (reqs.drop m).take (j - m) := by
    rw [← List.take_add]
    congr 1
    omega
  rw [this, allocStateFrom_append]
  exact allocStateFrom_lookup_stable h _

/-- The hidden sheet only grows along the session. -/
theorem rowsBefore_mono (reqs : List (List Str)) {m j : Nat} (hmj : m ≤ j) :
    (allocStateFrom {} (reqs.take m)).hiddenRows.length ≤ rowsBefore reqs j := by
  have hsplit : reqs.take j = reqs.take m ++ (reqs.drop m).take (j - m) := by
    rw [← List.take_add]
    congr 1
    omega
  unfold rowsBefore
  rw [hsplit, allocStateFrom_append]
  obtain ⟨ext, hext⟩ :=
    allocStateFrom_rows_prefix (allocStateFrom {} (reqs.take m)) ((reqs.drop m).take (j - m))
  rw [hext, List.length_append]
  omega

/-- Identical request lists resolve identically, earlier-to-later. -/
theorem allocResult_eq_of_eq_le (reqs : List (List Str)) {i j : Nat} (hij : i ≤ j)
    (hi : i < reqs.length) (hj : j < reqs.length)
    (heq : reqs.getD i [] = reqs.getD j []) :
    allocResult reqs i = allocResult reqs j := by
  rcases Nat.eq_or_lt_of_le hij with h | h
  · rw [h]
  · obtain ⟨s, hres_i, hlook⟩ := allocResult_spec reqs i hi
    have hstable : (allocStateFrom {} (reqs.take j)).cache.lookup
        (joinPipe (reqs.getD i [])) = some s :=
      lookup_stable_between reqs (by omega) hlook
    have hres_j : allocResult reqs j =
        (allocStep (allocStateFrom {} (reqs.take j)) (reqs.getD j [])).1 :=
      runAllocFrom_getD {} reqs j hj
    rw [hres_j, allocStep_reuse (by rw [← heq]; exact hstable), hres_i, ← heq]

/-- C4 (amended): within a construction session, dropdown value lists are
deduplicated by their pipe-joined concatenation: (a) two identical ordered
value lists resolve to the same rule and row range of the hidden lookup
sheet (identical range formula); (b) a list whose pipe-joined concatenation
differs from every earlier list's is allocated afresh, appended right after
the hidden sheet's current rows — and when it is a reordering of an earlier
(necessarily nonempty) list, its range is distinct from that list's; (c) the
returned rule is the list-type validation referencing that range with
`allowBlank = true` and the fixed error title and message.  (Amended only
in (b): a reordering whose pipe-join collides with the earlier list's —
pipe-embedded values, e.g. `["a","a|a"]` vs `["a|a","a"]` — is deduplicated
together instead of allocated a distinct range.) -/
theorem c4_validation_dedup (reqs : List (List Str)) (i j : Nat)
    (hi : i < reqs.length) (hj : j < reqs.length) :
    (reqs.getD i [] = reqs.getD j [] → allocResult reqs i = allocResult reqs j) ∧
    ((∀ k, k < j → joinPipe (reqs.getD k []) ≠ joinPipe (reqs.getD j [])) →
      (allocResult reqs j).2.1 = rowsBefore reqs j + 1 ∧
      (i < j → (reqs.getD j []).Perm (reqs.getD i []) →
        reqs.getD j [] ≠ reqs.getD i [] →
        (allocResult reqs j).2 ≠ (allocResult reqs i).2)) ∧
    (allocResult reqs j).1 =
      mkSelectRule (allocResult reqs j).2.1 (allocResult reqs j).2.2 ∧
    (allocResult reqs j).2.2 =
      (allocResult reqs j).2.1 + (reqs.getD j []).length - 1 := by
  obtain ⟨sj, hres_j, hlook_j⟩ := allocResult_spec reqs j hj
  refine ⟨?_, ?_, by rw [hres_j], by rw [hres_j]⟩
  · intro heq
    rcases le_total i j with hij | hij
    · exact allocResult_eq_of_eq_le reqs hij hi hj heq
    · exact (allocResult_eq_of_eq_le reqs hij hj hi heq.symm).symm
  · intro hfresh
    have hnone : (allocStateFrom {} (reqs.take j)).cache.lookup
        (joinPipe (reqs.getD j [])) = none := by
      rw [allocStateFrom_lookup_none]
      refine ⟨rfl, ?_⟩
      intro hmem
      obtain ⟨x, hx, hjx⟩ := List.mem_map.mp hmem
      obtain ⟨idx, hidx, hxeq⟩ := List.mem_iff_getElem.mp hx
      have hidxj : idx < j := by
        have := hidx
        rw [List.length_take] at this
        omega
      have hidxlen : idx < reqs.length := by
        have := hidx
        rw [List.length_take] at this
        omega
      have hgd : reqs.getD idx [] = x := by
        rw [List.getD_eq_getElem?_getD, List.getElem?_eq_getElem hidxlen]
        rw [← hxeq, List.getElem_take]
        rfl
      exact hfresh idx hidxj (by rw [hgd]; exact hjx)
    have hres_j' : allocResult reqs j =
        (allocStep (allocStateFrom {} (reqs.take j)) (reqs.getD j [])).1 :=
      runAllocFrom_getD {} reqs j hj
    have hfreshres : allocResult reqs j =
        (mkSelectRule (rowsBefore reqs j + 1)
          (rowsBefore reqs j + 1 + (reqs.getD j []).length - 1),
         rowsBefore reqs j + 1,
         rowsBefore reqs j + 1 + (reqs.getD j []).length - 1) := by
      rw [hres_j', allocStep_fresh hnone]
      rfl
    refine ⟨by rw [hfreshres], ?_⟩
    intro hijlt hperm hne
    have hlen2 : 2 ≤ (reqs.getD j []).length := two_le_length_of_perm_ne hperm hne
    have hleni : (reqs.getD i []).length = (reqs.getD j []).length :=
      (hperm.length_eq).symm
    obtain ⟨si, hres_i, hlook_i⟩ := allocResult_spec reqs i hi
    have hstable : (allocStateFrom {} (reqs.take j)).cache.lookup
        (joinPipe (reqs.getD i [])) = some si :=
      lookup_stable_between reqs (by omega) hlook_i
    have hinv : CacheInv (allocStateFrom {} (reqs.take j)) :=
      cacheInv_from {} cacheInv_empty _
    obtain ⟨hsi1, v, hjv, hbound⟩ := hinv _ (lookup_mem hstable)
    have hjv' : joinPipe v = joinPipe (reqs.getD i []) := hjv
    have hbound' : si + v.length ≤
        (allocStateFrom {} (reqs.take j)).hiddenRows.length + 1 := hbound
    have hvne : v ≠ [] := by
      intro hv
      have hpipe : '|' ∈ joinPipe (reqs.getD i []) :=
        mem_joinPipe_of_two (by omega)
      rw [← hjv', hv] at hpipe
      simp [joinPipe, joinSep] at hpipe
    have hvlen : 1 ≤ v.length := by
      cases v with
      | nil => exact absurd rfl hvne
      | cons a b => simp
    have hsile : si ≤ rowsBefore reqs j := by
      unfold rowsBefore
      omega
    intro hranges
    rw [hfreshres, hres_i] at hranges
    have hfirst : rowsBefore reqs j + 1 = si := congrArg Prod.fst hranges
    omega

/-- Witness for C4 at the spec's scenario: the two identical
`["Ativo","Inativo"]` columns share a range; the reordered
`["Inativo","Ativo"]` gets a fresh range appended after the hidden sheet's
two rows, distinct from theirs. -/
theorem c4_validation_dedup_witness :
    allocResult c4session 0 = allocResult c4session 1 ∧
    (allocResult c4session 2).2.1 = rowsBefore c4session 2 + 1 ∧
    (allocResult c4session 2).2 ≠ (allocResult c4session 0).2 := by
  have h01 := (c4_validation_dedup c4session 0 1 (by decide) (by decide)).1 (by decide)
  have h2 := (c4_validation_dedup c4session 0 2 (by decide) (by decide)).2.1 ?_
  · exact ⟨h01, h2.1, h2.2 (by decide) (by decide) (by decide)⟩
  · intro k hk
    interval_cases k <;> decide

/-- C4 (counterexample): `["a|a","a"]` has the same values as `["a","a|a"]`
in a different order, yet resolves to the very same rule and row range —
the pipe-joined dedup key collides, so no distinct new range is
allocated. -/
theorem c4_counterexample :
    (["a|a".data, "a".data] : List Str).Perm ["a".data, "a|a".data] ∧
    (["a|a".data, "a".data] : List Str) ≠ ["a".data, "a|a".data] ∧
    allocResult c4collision 1 = allocResult c4collision 0 := by
  exact ⟨by decide, by decide, rfl⟩

end XlsxEngine
